import Mathlib

/-!
# Overdrive effect (`src/overdrive/overdrive.cpp`): embedding and properties

The C source computes on `float`.  The embedding takes sample arithmetic as
exact: every function is written over an arbitrary linearly ordered field `α`,
so the definitions run on `ℚ` and the theorems are stated over `ℝ` (or over
every such `α`).  Rounding, NaN and infinities are outside the model.

The libm functions `expf`, `powf` and the constant `M_PI` come from `<math.h>`;
they are parameters of the functions that call them, and the theorems
instantiate them with `Real.exp`, `Real.rpow` and `Real.pi`.

Buffers (`float*`) are index maps `Nat → α`; allocation sizes and pointer
aliasing are not modelled (the block and the scratch buffer are distinct).
`unsigned int` block sizes are natural numbers, taken below the range where
the `int` loop counters of the source would overflow.
-/

namespace Overdrive

variable {α : Type} [LinearOrderedField α]

/-- Modelled from the spec: the header `overdrive.h` with the declaration of
`iir_1p` is not among the sources.  Section 3 of the spec gives the record
`{b0, b1, a1, x1, y1}`, which are also the only members the code touches. -/
structure iir_1p (α : Type) where
  b0 : α
  b1 : α
  a1 : α
  x1 : α
  y1 : α

/-- Modelled from the spec: the filter type codes `LPF1P` and `HPF1P` are
declared in the missing header `overdrive.h`; section 3 of the spec gives the
closed enumeration {LowPass1Pole, HighPass1Pole}.  The `default:` branch of the
`switch` in `compute_filter_coeffs` (which leaves the locals uninitialised) is
not reachable for a value of this type; every call in the source passes one of
the two constants. -/
inductive FilterType where
  | LPF1P
  | HPF1P
  deriving DecidableEq, Repr

/-- Modelled from the spec: the declaration of `struct overdrive` is in the
missing header `overdrive.h`.  The members are those the code reads and writes
(section 3 of the spec lists the same ones). -/
structure overdrive (α : Type) where
  procbuf : Nat → α
  blksz : Nat
  oversample : Nat
  fs : α
  gain : α
  tone : α
  level : α
  bypass : Bool
  pre_emph : iir_1p α
  post_emph : iir_1p α
  tone_lp : iir_1p α
  tone_hp : iir_1p α

/-- The loop `for (i = 0; i < n; i++) s = body i s`. -/
def forLoop {σ : Type} (n : Nat) (body : Nat → σ → σ) (s : σ) : σ :=
  match n with
  | 0 => s
  | k + 1 => body k (forLoop k body s)

/-- `compute_filter_coeffs(cf, type, fs, f0)`: lines 6-51.  Returns the filter
record after the five stores through `cf`. -/
def compute_filter_coeffs (expf : α → α) (M_PI : α) (cf : iir_1p α)
    (type : FilterType) (fs f0 : α) : iir_1p α :=
  let w0 := 2.0 * M_PI * f0 / fs
  let (b0, b1, a1) :=
    match type with
    | FilterType.LPF1P =>
      let a1 := -expf (-w0)
      let g := (1.0 + a1) / 1.12
      (g, 0.12 * g, a1)
    | FilterType.HPF1P =>
      let a1 := -expf (-w0)
      let g := (1.0 - a1) * 0.5
      (g, -g, a1)
  let cf := { cf with b0 := b0 }
  let cf := { cf with b1 := b1 }
  let cf := { cf with a1 := -a1 }
  let cf := { cf with y1 := 0.0 }
  { cf with x1 := 0.0 }

/-- `make_overdrive(od, oversample, bsz, fs)`: lines 54-81.  The pointer
argument is overwritten by `malloc` before any use; `od` here is the freshly
allocated (indeterminate) structure together with its scratch buffer. -/
def make_overdrive (expf : α → α) (M_PI : α) (od : overdrive α)
    (oversample bsz : Nat) (fs : α) : overdrive α :=
  let od := forLoop bsz
    (fun i od => { od with procbuf := Function.update od.procbuf i 0.0 }) od
  let od := { od with blksz := bsz }
  let od := { od with oversample := oversample }
  let od := { od with fs := (oversample : α) * fs }
  let od := { od with gain := 30.0 }
  let od := { od with tone := 0.5 }
  let od := { od with level := 0.5 }
  let od := { od with bypass := true }
  let od := { od with pre_emph :=
    compute_filter_coeffs expf M_PI od.pre_emph FilterType.HPF1P od.fs 720.0 }
  let od := { od with post_emph :=
    compute_filter_coeffs expf M_PI od.post_emph FilterType.LPF1P od.fs 800.0 }
  let od := { od with tone_lp :=
    compute_filter_coeffs expf M_PI od.tone_lp FilterType.LPF1P od.fs 1200.0 }
  { od with tone_hp :=
    compute_filter_coeffs expf M_PI od.tone_hp FilterType.HPF1P od.fs 700.0 }

/-- `tick_filter_1p(f, x)`: lines 89-94.  Returns the updated filter and the
output sample. -/
def tick_filter_1p (flt : iir_1p α) (x : α) : iir_1p α × α :=
  let flt := { flt with y1 := flt.b0 * x + flt.b1 * flt.x1 + flt.a1 * flt.y1 }
  let flt := { flt with x1 := x }
  (flt, flt.y1)

/-- `sqr(x)`: lines 97-100. -/
def sqr (x : α) : α := x * x

/-- File-scope `float thrs = 0.8`. -/
def thrs : α := 0.8

/-- File-scope `float nthrs = -0.72`. -/
def nthrs : α := -0.72

/-- File-scope `float f = 1.25`. -/
def f : α := 1.25

/-- Body of the loop of `clipper_tick` (lines 110-121) on the sample `x[i]`. -/
def clipper_sample (x : α) : α :=
  let x := if x ≥ 1.2 then 1.2 else x
  let x := if x ≤ -1.12 then -1.12 else x
  let x := if x > thrs then x - f * sqr (x - thrs) else x
  let x := if x < nthrs then x + f * sqr (x - nthrs) else x
  x * 0.7

/-- `clipper_tick(N, x)`: lines 106-123.  `N` is a C `int`; a negative `N`
runs no iteration. -/
def clipper_tick (N : Int) (x : Nat → α) : Nat → α :=
  forLoop N.toNat (fun i x => Function.update x i (clipper_sample (x i))) x

/-- `od_set_cut_pre_emp(od, fc)`: lines 143-146. -/
def od_set_cut_pre_emp (expf : α → α) (M_PI : α) (od : overdrive α) (fc : α) :
    overdrive α :=
  { od with pre_emph :=
    compute_filter_coeffs expf M_PI od.pre_emph FilterType.HPF1P od.fs fc }

/-- `od_set_cut_post_emp(od, fc)`: lines 148-151. -/
def od_set_cut_post_emp (expf : α → α) (M_PI : α) (od : overdrive α) (fc : α) :
    overdrive α :=
  { od with post_emph :=
    compute_filter_coeffs expf M_PI od.post_emph FilterType.HPF1P od.fs fc }

/-- `od_set_cut_tone_lp(od, fc)`: lines 153-156. -/
def od_set_cut_tone_lp (expf : α → α) (M_PI : α) (od : overdrive α) (fc : α) :
    overdrive α :=
  { od with tone_lp :=
    compute_filter_coeffs expf M_PI od.tone_lp FilterType.HPF1P od.fs fc }

/-- `od_set_cut_tone_hp(od, fc)`: lines 158-161. -/
def od_set_cut_tone_hp (expf : α → α) (M_PI : α) (od : overdrive α) (fc : α) :
    overdrive α :=
  { od with tone_hp :=
    compute_filter_coeffs expf M_PI od.tone_hp FilterType.HPF1P od.fs fc }

/-- `od_set_drive(od, drive_db)`: lines 164-174. -/
def od_set_drive (powf : α → α → α) (od : overdrive α) (drive_db : α) :
    overdrive α :=
  let drv := drive_db
  let drv := if drv < 0.0 then 0.0 else if drv > 45.0 then 45.0 else drv
  { od with gain := powf 10.0 (drv / 20.0) }

/-- `od_set_tone(od, hf_level_db)`: lines 176-186. -/
def od_set_tone (powf : α → α → α) (od : overdrive α) (hf_level_db : α) :
    overdrive α :=
  let tone := hf_level_db
  let tone := if tone < -12.0 then -12.0 else if tone > 12.0 then 12.0 else tone
  { od with tone := powf 10.0 (tone / 20.0) }

/-- `od_set_level(od, outlevel_db)`: lines 188-198.  The two tests are
separate `if` statements, the first storing `40.0`. -/
def od_set_level (powf : α → α → α) (od : overdrive α) (outlevel_db : α) :
    overdrive α :=
  let vol := outlevel_db
  let vol := if vol < -40.0 then 40.0 else vol
  let vol := if vol > 0.0 then 0.0 else vol
  { od with level := powf 10.0 (vol / 20.0) }

/-- `od_set_bypass(od, bypass)`: lines 200-217.  Returns the engine and the
returned flag. -/
def od_set_bypass (od : overdrive α) (bypass : Bool) : overdrive α × Bool :=
  let od :=
    if !bypass then
      if od.bypass then { od with bypass := false }
      else { od with bypass := true }
    else { od with bypass := true }
  (od, od.bypass)

/-- `overdrive_tick(od, x)`: lines 220-247.  Returns the engine and the block
after the call. -/
def overdrive_tick (od : overdrive α) (x : Nat → α) : overdrive α × (Nat → α) :=
  let n := od.blksz
  if od.bypass then (od, x)
  else
    let od := forLoop n (fun i od =>
      let r := tick_filter_1p od.pre_emph (od.gain * x i)
      { od with pre_emph := r.1, procbuf := Function.update od.procbuf i r.2 }) od
    let od := { od with procbuf := clipper_tick (n : Int) od.procbuf }
    let x := forLoop n (fun i x => Function.update x i (x i + od.procbuf i)) x
    forLoop n (fun i (s : overdrive α × (Nat → α)) =>
      let od := s.1
      let x := s.2
      let r := tick_filter_1p od.post_emph (od.level * x i)
      let od := { od with post_emph := r.1 }
      let x := Function.update x i r.2
      let rl := tick_filter_1p od.tone_lp (x i)
      let rh := tick_filter_1p od.tone_hp (x i)
      let od := { od with tone_lp := rl.1, tone_hp := rh.1 }
      (od, Function.update x i (rl.2 + od.tone * rh.2))) (od, x)

/-- An all-zero filter record. -/
def zeroFilter : iir_1p α := ⟨0, 0, 0, 0, 0⟩

/-- An all-zero engine record with an all-zero scratch buffer, used as the
content of a fresh allocation and as a base for concrete engine states. -/
def zeroEngine : overdrive α :=
  { procbuf := fun _ => 0, blksz := 0, oversample := 0, fs := 0, gain := 0,
    tone := 0, level := 0, bypass := false, pre_emph := zeroFilter,
    post_emph := zeroFilter, tone_lp := zeroFilter, tone_hp := zeroFilter }

/-- Body of the loop of `cubic_clip` (lines 130-136) on the sample `x[n]`.
The three tests form an `if / else if / else if` chain without a final
`else`; when none holds the sample is left as it is. -/
def cubic_sample (asym x : α) : α :=
  let xn := x + asym
  if xn ≤ -1.0 then -2.0 / 3.0
  else if xn > -1.0 ∧ xn < 1.0 then xn - (1.0 / 3.0) * (xn * xn * xn)
  else if xn ≥ 1.0 then 2.0 / 3.0
  else x

/-- `cubic_clip(N, asym, x)`: lines 125-138.  The counter is `unsigned int`
and `N` is a 32-bit `int`, so the test `n < N` compares with `N` converted to
`unsigned int`, that is `N mod 2^32`. -/
def cubic_clip (N : Int) (asym : α) (x : Nat → α) : Nat → α :=
  forLoop (N % 4294967296).toNat
    (fun n x => Function.update x n (cubic_sample asym (x n))) x

/-- State of a filter after `n` successive calls of `tick_filter_1p` on the
inputs `u 0, ..., u (n-1)`. -/
def filter_run (flt : iir_1p α) (u : Nat → α) : Nat → iir_1p α
  | 0 => flt
  | n + 1 => (tick_filter_1p (filter_run flt u n) (u n)).1

/-- Value returned by call number `i` (from 0) of `tick_filter_1p` when the
filter is fed `u 0, u 1, ...` in order. -/
def filter_out (flt : iir_1p α) (u : Nat → α) (i : Nat) : α :=
  (tick_filter_1p (filter_run flt u i) (u i)).2

/-- The unit impulse: 1 at index 0, then 0. -/
def impulse : Nat → α := fun n => if n = 0 then 1 else 0

/-- Signal path of section 4.4 of the spec, step 2: output `i` of the
pre-emphasis filter fed `gain * block[0], gain * block[1], ...`. -/
def spec_s (od : overdrive α) (x : Nat → α) (i : Nat) : α :=
  filter_out od.pre_emph (fun j => od.gain * x j) i

/-- Signal path of the spec, step 3: the clipper applied to the first
`blockSize` pre-emphasis outputs. -/
def spec_c (od : overdrive α) (x : Nat → α) : Nat → α :=
  clipper_tick (od.blksz : Int) (spec_s od x)

/-- Signal path of the spec, step 4: clean signal plus clipped signal. -/
def spec_m (od : overdrive α) (x : Nat → α) (i : Nat) : α :=
  x i + spec_c od x i

/-- Signal path of the spec, step 5, first half: output `i` of the
post-emphasis filter fed `level * m[0], level * m[1], ...`. -/
def spec_p (od : overdrive α) (x : Nat → α) (i : Nat) : α :=
  filter_out od.post_emph (fun j => od.level * spec_m od x j) i

/-- Signal path of the spec, step 5, second half: both tone filters are fed
the post-emphasis output and mixed with the `tone` factor. -/
def spec_out (od : overdrive α) (x : Nat → α) (i : Nat) : α :=
  filter_out od.tone_lp (spec_p od x) i
    + od.tone * filter_out od.tone_hp (spec_p od x) i

/-- One call of the public interface on an engine. -/
inductive Op (α : Type) where
  | set_drive (drive_db : α)
  | set_tone (hf_level_db : α)
  | set_level (outlevel_db : α)
  | set_bypass (bypass : Bool)
  | set_cut_pre_emp (fc : α)
  | set_cut_post_emp (fc : α)
  | set_cut_tone_lp (fc : α)
  | set_cut_tone_hp (fc : α)
  | tick (x : Nat → α)

/-- Engine after one call of the interface. -/
def apply_op (expf : α → α) (powf : α → α → α) (M_PI : α) (od : overdrive α) :
    Op α → overdrive α
  | Op.set_drive d => od_set_drive powf od d
  | Op.set_tone d => od_set_tone powf od d
  | Op.set_level d => od_set_level powf od d
  | Op.set_bypass b => (od_set_bypass od b).1
  | Op.set_cut_pre_emp fc => od_set_cut_pre_emp expf M_PI od fc
  | Op.set_cut_post_emp fc => od_set_cut_post_emp expf M_PI od fc
  | Op.set_cut_tone_lp fc => od_set_cut_tone_lp expf M_PI od fc
  | Op.set_cut_tone_hp fc => od_set_cut_tone_hp expf M_PI od fc
  | Op.tick x => (overdrive_tick od x).1

/-- Engine after a finite sequence of calls, first call first. -/
def run_ops (expf : α → α) (powf : α → α → α) (M_PI : α) (od : overdrive α)
    (ops : List (Op α)) : overdrive α :=
  ops.foldl (apply_op expf powf M_PI) od

/-- Scratch buffer left by `overdrive_tick` on an engine that is not bypassed. -/
def tick_procbuf (od : overdrive α) (x : Nat → α) : Nat → α :=
  clipper_tick (od.blksz : Int)
    (fun i => if i < od.blksz then spec_s od x i else od.procbuf i)

/-- Block held between the mixing loop and the last loop of `overdrive_tick`. -/
def tick_mixed (od : overdrive α) (x : Nat → α) : Nat → α :=
  fun i => if i < od.blksz then x i + tick_procbuf od x i else x i

/-- The engine of the end-to-end scenarios of section 8 of the spec:
`make_overdrive` with oversample 1, block size 4 and sample rate 48000, then
bypass disabled, drive 20 dB, tone 0 dB and level 0 dB. -/
def scenario_engine (expf : α → α) (powf : α → α → α) (M_PI : α)
    (raw : overdrive α) : overdrive α :=
  od_set_level powf
    (od_set_tone powf
      (od_set_drive powf
        (od_set_bypass (make_overdrive expf M_PI raw 1 4 48000.0) false).1 20.0)
      0.0)
    0.0

/-- A small concrete engine that is not bypassed. -/
def demo_engine : overdrive ℚ :=
  { procbuf := fun _ => 0, blksz := 2, oversample := 1, fs := 8, gain := 2,
    tone := 3, level := 1 / 2, bypass := false,
    pre_emph := ⟨1, -1, 1 / 2, 0, 0⟩, post_emph := ⟨1 / 4, 1 / 8, 1 / 2, 0, 0⟩,
    tone_lp := ⟨1 / 4, 1 / 8, 1 / 2, 0, 0⟩, tone_hp := ⟨1, -1, 1 / 2, 0, 0⟩ }

/-- The documented linear ranges of the three parameters (section 4.4 of the
spec): drive 0..45 dB, tone -12..12 dB, level -40..0 dB. -/
def params_in_range (od : overdrive ℝ) : Prop :=
  1 ≤ od.gain ∧ od.gain ≤ (10 : ℝ) ^ ((45 : ℝ) / 20)
    ∧ (10 : ℝ) ^ ((-12 : ℝ) / 20) ≤ od.tone ∧ od.tone ≤ (10 : ℝ) ^ ((12 : ℝ) / 20)
    ∧ (10 : ℝ) ^ ((-40 : ℝ) / 20) ≤ od.level ∧ od.level ≤ 1

/-! ## General lemmas -/

theorem forLoop_succ {σ : Type} (n : Nat) (body : Nat → σ → σ) (s : σ) :
    forLoop (n + 1) body s = body n (forLoop n body s) := rfl

/-- Every index below the bound holds the image of its original sample after
the clipper loop; the other indices are untouched. -/
theorem clipper_loop_apply (n : Nat) (x : Nat → α) (i : Nat) :
    forLoop n (fun i x => Function.update x i (clipper_sample (x i))) x i
      = if i < n then clipper_sample (x i) else x i := by
  induction n with
  | zero => simp [forLoop]
  | succ k ih =>
    rw [forLoop_succ]
    by_cases hik : i = k
    · subst hik
      simp [ih]
    · rw [Function.update_noteq hik, ih]
      have : i < k + 1 ↔ i < k := by omega
      simp [this]

theorem clipper_sample_lower (x : α) : -0.644 ≤ clipper_sample x := by
  unfold clipper_sample thrs nthrs f sqr
  simp only []
  split_ifs <;> norm_num at * <;> first | linarith | nlinarith

theorem clipper_sample_upper (x : α) : clipper_sample x ≤ 0.7 := by
  unfold clipper_sample thrs nthrs f sqr
  simp only []
  split_ifs <;> norm_num at * <;> first | linarith | nlinarith

theorem clipper_sample_bounds (x : α) :
    -0.644 ≤ clipper_sample x ∧ clipper_sample x ≤ 0.7 :=
  ⟨clipper_sample_lower x, clipper_sample_upper x⟩

/-- The record written by `compute_filter_coeffs` for `LPF1P`. -/
theorem compute_filter_coeffs_lpf (expf : α → α) (M_PI : α) (cf : iir_1p α)
    (fs f0 : α) :
    compute_filter_coeffs expf M_PI cf FilterType.LPF1P fs f0
      = { b0 := (1 + -expf (-(2 * M_PI * f0 / fs))) / 1.12,
          b1 := 0.12 * ((1 + -expf (-(2 * M_PI * f0 / fs))) / 1.12),
          a1 := expf (-(2 * M_PI * f0 / fs)), x1 := 0, y1 := 0 } := by
  unfold compute_filter_coeffs
  norm_num

/-- The record written by `compute_filter_coeffs` for `HPF1P`. -/
theorem compute_filter_coeffs_hpf (expf : α → α) (M_PI : α) (cf : iir_1p α)
    (fs f0 : α) :
    compute_filter_coeffs expf M_PI cf FilterType.HPF1P fs f0
      = { b0 := (1 - -expf (-(2 * M_PI * f0 / fs))) * 0.5,
          b1 := -((1 - -expf (-(2 * M_PI * f0 / fs))) * 0.5),
          a1 := expf (-(2 * M_PI * f0 / fs)), x1 := 0, y1 := 0 } := by
  unfold compute_filter_coeffs
  norm_num

/-- The record written by `compute_filter_coeffs` does not depend on the
previous contents of the filter. -/
theorem compute_filter_coeffs_indep (expf : α → α) (M_PI : α) (cf cf2 : iir_1p α)
    (type : FilterType) (fs f0 : α) :
    compute_filter_coeffs expf M_PI cf type fs f0
      = compute_filter_coeffs expf M_PI cf2 type fs f0 := by
  cases type
  · rw [compute_filter_coeffs_lpf, compute_filter_coeffs_lpf]
  · rw [compute_filter_coeffs_hpf, compute_filter_coeffs_hpf]

theorem ten_rpow_ne_thirty : (10 : ℝ) ^ ((30 : ℝ) / 20) ≠ 30 := by
  intro h
  have h2 : ((10 : ℝ) ^ ((30 : ℝ) / 20)) ^ (2 : ℕ) = 1000 := by
    rw [← Real.rpow_natCast, ← Real.rpow_mul (by norm_num)]
    have e : ((30 : ℝ) / 20 * ((2 : ℕ) : ℝ)) = ((3 : ℕ) : ℝ) := by norm_num
    rw [e, Real.rpow_natCast]
    norm_num
  rw [h] at h2
  norm_num at h2

/-! ## Clipper -/

/-- C1: after `clipper_tick(N, x)` each of the first `N` samples lies in
`[-1.12*0.7, 1.2*0.7] = [-0.784, 0.84]`. -/
theorem clipper_tick_range (N : Int) (x : Nat → α) (i : Nat) (hi : (i : Int) < N) :
    -1.12 * 0.7 ≤ clipper_tick N x i ∧ clipper_tick N x i ≤ 1.2 * 0.7
      ∧ (-1.12 * 0.7 : α) = -0.784 ∧ (1.2 * 0.7 : α) = 0.84 := by
  have hlt : i < N.toNat := by omega
  have hb := clipper_sample_bounds (x i)
  unfold clipper_tick
  rw [clipper_loop_apply, if_pos hlt]
  refine ⟨?_, ?_, by norm_num, by norm_num⟩
  · have : (-1.12 * 0.7 : α) ≤ -0.644 := by norm_num
    exact le_trans this hb.1
  · have : (0.7 : α) ≤ 1.2 * 0.7 := by norm_num
    exact le_trans hb.2 this

theorem clipper_tick_range_witness :
    ((1 : Nat) : Int) < 3 ∧
      (-1.12 * 0.7 ≤ clipper_tick 3 (fun _ => (5 : ℚ)) 1
        ∧ clipper_tick 3 (fun _ => (5 : ℚ)) 1 ≤ 1.2 * 0.7
        ∧ (-1.12 * 0.7 : ℚ) = -0.784 ∧ (1.2 * 0.7 : ℚ) = 0.84) :=
  ⟨by decide, clipper_tick_range 3 (fun _ => (5 : ℚ)) 1 (by decide)⟩

/-! ## Bypass -/

/-- C2: on an engine with `bypass = true`, `overdrive_tick` returns the block
and the whole engine (filters, scratch buffer, parameters) unchanged. -/
theorem overdrive_tick_bypass (od : overdrive α) (x : Nat → α)
    (h : od.bypass = true) :
    overdrive_tick od x = (od, x)
      ∧ (∀ i, (overdrive_tick od x).2 i = x i)
      ∧ (overdrive_tick od x).1 = od := by
  have h0 : overdrive_tick od x = (od, x) := by
    unfold overdrive_tick
    simp [h]
  simp [h0]

theorem overdrive_tick_bypass_witness :
    ({ zeroEngine with blksz := 4, gain := 30, bypass := true } : overdrive ℚ).bypass = true
      ∧ (overdrive_tick
            ({ zeroEngine with blksz := 4, gain := 30, bypass := true } : overdrive ℚ)
            (fun _ => (1 : ℚ))
          = (({ zeroEngine with blksz := 4, gain := 30, bypass := true } : overdrive ℚ),
              fun _ => (1 : ℚ))
        ∧ (∀ i, (overdrive_tick
            ({ zeroEngine with blksz := 4, gain := 30, bypass := true } : overdrive ℚ)
            (fun _ => (1 : ℚ))).2 i = (fun _ => (1 : ℚ)) i)
        ∧ (overdrive_tick
            ({ zeroEngine with blksz := 4, gain := 30, bypass := true } : overdrive ℚ)
            (fun _ => (1 : ℚ))).1
          = ({ zeroEngine with blksz := 4, gain := 30, bypass := true } : overdrive ℚ)) :=
  ⟨rfl, overdrive_tick_bypass _ _ rfl⟩

/-! ## Parameter setters -/

/-- C3: `od_set_drive` stores `gain = 10^(c/20)` with `c` the requested value
clamped to `[0, 45]`, and changes no other member; a request of 50 gives
`10^(45/20)` and a request of -5 gives gain 1. -/
theorem od_set_drive_gain (od : overdrive ℝ) (drive_db : ℝ) :
    od_set_drive Real.rpow od drive_db
        = { od with gain := (10 : ℝ) ^ (max 0 (min drive_db 45) / 20) }
      ∧ (od_set_drive Real.rpow od 50).gain = (10 : ℝ) ^ ((45 : ℝ) / 20)
      ∧ (od_set_drive Real.rpow od (-5)).gain = 1 := by
  refine ⟨?_, ?_, ?_⟩
  · unfold od_set_drive
    simp only [Real.rpow_eq_pow]
    have hc : (if drive_db < 0.0 then (0.0 : ℝ)
        else if drive_db > 45.0 then 45.0 else drive_db)
        = max 0 (min drive_db 45) := by
      split_ifs with h1 h2
      · have h1' : drive_db < 0 := by norm_num at h1; exact h1
        have e : min drive_db 45 = drive_db := min_eq_left (by linarith)
        rw [e, max_eq_left h1'.le]
        norm_num
      · have h2' : 45 < drive_db := by norm_num at h2; exact h2
        rw [min_eq_right h2'.le, max_eq_right (by norm_num)]
        norm_num
      · have h1' : 0 ≤ drive_db := by norm_num at h1; exact h1
        have h2' : drive_db ≤ 45 := by norm_num at h2; exact h2
        rw [min_eq_left h2', max_eq_right h1']
    rw [hc]
    norm_num
  · unfold od_set_drive
    norm_num
  · unfold od_set_drive
    norm_num

/-- C4 (behaviour of the code): a request of -50 dB, below the documented
floor of -40 dB, leaves `level = 1` (0 dB), whereas the clamp to `[-40, 0]`
would give `10^(-40/20) = 0.01`. -/
theorem od_set_level_below_floor (od : overdrive ℝ) :
    (od_set_level Real.rpow od (-50)).level = 1
      ∧ (10 : ℝ) ^ ((-40 : ℝ) / 20) = 0.01
      ∧ (od_set_level Real.rpow od (-50)).level ≠ (10 : ℝ) ^ ((-40 : ℝ) / 20) := by
  have h1 : (od_set_level Real.rpow od (-50)).level = 1 := by
    unfold od_set_level
    norm_num
  have h2 : (10 : ℝ) ^ ((-40 : ℝ) / 20) = 0.01 := by
    have : ((-40 : ℝ) / 20) = ((-2 : ℤ) : ℝ) := by norm_num
    rw [this, Real.rpow_intCast]
    norm_num
  refine ⟨h1, h2, ?_⟩
  rw [h1, h2]
  norm_num

/-- C5 (counterexample): on an engine that is not bypassed, a request
`od_set_bypass(od, false)` leaves `bypass = true`, not the requested `false`. -/
theorem od_set_bypass_not_assignment :
    (od_set_bypass ({ zeroEngine with bypass := false } : overdrive ℚ) false).1.bypass
        ≠ false := by
  decide

/-- C5 (amended): `od_set_bypass(od, b)` sets `bypass` when `b` is true and
toggles it when `b` is false, changes nothing else, and returns the resulting
flag. -/
theorem od_set_bypass_toggle {β : Type} (od : overdrive β) (b : Bool) :
    od_set_bypass od b
      = ({ od with bypass := b || !od.bypass }, b || !od.bypass) := by
  unfold od_set_bypass
  cases b <;> cases h : od.bypass <;> simp [h]

/-! ## Coefficient solver -/

/-- C6: for both filter types, `fs > 0` and `0 < f0 < fs/2`, the stored
feedback coefficient satisfies `0 < a1 < 1`, hence `|a1| < 1`; below the
Nyquist frequency it moreover stays above `exp(-pi)`. -/
theorem compute_filter_coeffs_pole (cf : iir_1p ℝ) (type : FilterType) (fs f0 : ℝ)
    (hfs : 0 < fs) (hf0 : 0 < f0) (hny : f0 < fs / 2) :
    0 < (compute_filter_coeffs Real.exp Real.pi cf type fs f0).a1
      ∧ (compute_filter_coeffs Real.exp Real.pi cf type fs f0).a1 < 1
      ∧ |(compute_filter_coeffs Real.exp Real.pi cf type fs f0).a1| < 1
      ∧ Real.exp (-Real.pi)
          < (compute_filter_coeffs Real.exp Real.pi cf type fs f0).a1 := by
  have hw : 0 < 2 * Real.pi * f0 / fs :=
    div_pos (mul_pos (mul_pos (by norm_num) Real.pi_pos) hf0) hfs
  have ha : (compute_filter_coeffs Real.exp Real.pi cf type fs f0).a1
      = Real.exp (-(2 * Real.pi * f0 / fs)) := by
    cases type
    · rw [compute_filter_coeffs_lpf]
    · rw [compute_filter_coeffs_hpf]
  have hpos : 0 < Real.exp (-(2 * Real.pi * f0 / fs)) := Real.exp_pos _
  have hlt : Real.exp (-(2 * Real.pi * f0 / fs)) < 1 := by
    rw [Real.exp_lt_one_iff]
    linarith
  have hny2 : 2 * Real.pi * f0 / fs < Real.pi := by
    rw [div_lt_iff₀ hfs]
    nlinarith [Real.pi_pos]
  rw [ha]
  refine ⟨hpos, hlt, by rw [abs_of_pos hpos]; exact hlt, ?_⟩
  rw [Real.exp_lt_exp]
  linarith

theorem compute_filter_coeffs_pole_witness :
    (0 : ℝ) < 48000 ∧ (0 : ℝ) < 720 ∧ (720 : ℝ) < 48000 / 2
      ∧ (0 < (compute_filter_coeffs Real.exp Real.pi zeroFilter
            FilterType.LPF1P 48000 720).a1
        ∧ (compute_filter_coeffs Real.exp Real.pi zeroFilter
            FilterType.LPF1P 48000 720).a1 < 1
        ∧ |(compute_filter_coeffs Real.exp Real.pi zeroFilter
            FilterType.LPF1P 48000 720).a1| < 1
        ∧ Real.exp (-Real.pi)
            < (compute_filter_coeffs Real.exp Real.pi zeroFilter
                FilterType.LPF1P 48000 720).a1) :=
  ⟨by norm_num, by norm_num, by norm_num,
    compute_filter_coeffs_pole zeroFilter FilterType.LPF1P 48000 720
      (by norm_num) (by norm_num) (by norm_num)⟩

/-- C7: with `w0 = 2*pi*f0/fs` and `a1_raw = -exp(-w0)`, the solver stores
`b0 = (1 + a1_raw)/1.12`, `b1 = 0.12*b0` for `LPF1P` and
`b0 = (1 - a1_raw)*0.5`, `b1 = -b0` for `HPF1P`; in both cases
`a1 = -a1_raw = exp(-w0)` and `x1 = y1 = 0`, whatever the filter held before. -/
theorem compute_filter_coeffs_values (cf : iir_1p ℝ) (fs f0 : ℝ) :
    (compute_filter_coeffs Real.exp Real.pi cf FilterType.LPF1P fs f0).b0
        = (1 + -Real.exp (-(2 * Real.pi * f0 / fs))) / 1.12
      ∧ (compute_filter_coeffs Real.exp Real.pi cf FilterType.LPF1P fs f0).b1
        = 0.12 * (compute_filter_coeffs Real.exp Real.pi cf FilterType.LPF1P fs f0).b0
      ∧ (compute_filter_coeffs Real.exp Real.pi cf FilterType.HPF1P fs f0).b0
        = (1 - -Real.exp (-(2 * Real.pi * f0 / fs))) * 0.5
      ∧ (compute_filter_coeffs Real.exp Real.pi cf FilterType.HPF1P fs f0).b1
        = -(compute_filter_coeffs Real.exp Real.pi cf FilterType.HPF1P fs f0).b0
      ∧ ∀ type : FilterType,
          (compute_filter_coeffs Real.exp Real.pi cf type fs f0).a1
              = -(-Real.exp (-(2 * Real.pi * f0 / fs)))
            ∧ (compute_filter_coeffs Real.exp Real.pi cf type fs f0).a1
              = Real.exp (-(2 * Real.pi * f0 / fs))
            ∧ (compute_filter_coeffs Real.exp Real.pi cf type fs f0).x1 = 0
            ∧ (compute_filter_coeffs Real.exp Real.pi cf type fs f0).y1 = 0 := by
  refine ⟨?_, ?_, ?_, ?_, ?_⟩
  · rw [compute_filter_coeffs_lpf]
  · rw [compute_filter_coeffs_lpf]
  · rw [compute_filter_coeffs_hpf]
  · rw [compute_filter_coeffs_hpf]
  · intro type
    cases type
    · rw [compute_filter_coeffs_lpf]
      simp
    · rw [compute_filter_coeffs_hpf]
      simp

/-! ## Corner-frequency setters -/

/-- C8 (behaviour of the code): each corner setter replaces exactly its own
filter by the solver's record at the engine rate, but all four pass `HPF1P`.
For `od_set_cut_post_emp` and `od_set_cut_tone_lp` the stored record is
therefore never the `LPF1P` record that `make_overdrive` configures for these
two filters. -/
theorem od_set_cut_filter_types (od : overdrive ℝ) (fc : ℝ) :
    od_set_cut_pre_emp Real.exp Real.pi od fc
        = { od with pre_emph := (compute_filter_coeffs Real.exp Real.pi
              od.pre_emph FilterType.HPF1P od.fs fc) }
      ∧ od_set_cut_tone_hp Real.exp Real.pi od fc
        = { od with tone_hp := (compute_filter_coeffs Real.exp Real.pi
              od.tone_hp FilterType.HPF1P od.fs fc) }
      ∧ od_set_cut_post_emp Real.exp Real.pi od fc
        = { od with post_emph := (compute_filter_coeffs Real.exp Real.pi
              od.post_emph FilterType.HPF1P od.fs fc) }
      ∧ od_set_cut_tone_lp Real.exp Real.pi od fc
        = { od with tone_lp := (compute_filter_coeffs Real.exp Real.pi
              od.tone_lp FilterType.HPF1P od.fs fc) }
      ∧ (∀ cf, (od_set_cut_post_emp Real.exp Real.pi od fc).post_emph
          ≠ compute_filter_coeffs Real.exp Real.pi cf FilterType.LPF1P od.fs fc)
      ∧ (∀ cf, (od_set_cut_tone_lp Real.exp Real.pi od fc).tone_lp
          ≠ compute_filter_coeffs Real.exp Real.pi cf FilterType.LPF1P od.fs fc) := by
  have key : ∀ cf cf2 : iir_1p ℝ,
      compute_filter_coeffs Real.exp Real.pi cf FilterType.HPF1P od.fs fc
        ≠ compute_filter_coeffs Real.exp Real.pi cf2 FilterType.LPF1P od.fs fc := by
    intro cf cf2 h
    rw [compute_filter_coeffs_hpf, compute_filter_coeffs_lpf] at h
    have hb1 := congrArg iir_1p.b1 h
    simp only at hb1
    have hpos : 0 < Real.exp (-(2 * Real.pi * fc / od.fs)) := Real.exp_pos _
    norm_num at hb1
    linarith
  exact ⟨rfl, rfl, rfl, rfl, fun cf => key _ cf, fun cf => key _ cf⟩

/-! ## Construction -/

/-- C9 (counterexample): the engine made with oversample 1, block size 4 and
sample rate 48000 has gain different from `10^(30/20)`, tone different from 1
and level different from 1. -/
theorem make_overdrive_defaults_not_unity :
    (make_overdrive Real.exp Real.pi zeroEngine 1 4 48000).gain
        ≠ (10 : ℝ) ^ ((30 : ℝ) / 20)
      ∧ (make_overdrive Real.exp Real.pi zeroEngine 1 4 48000).tone ≠ 1
      ∧ (make_overdrive Real.exp Real.pi zeroEngine 1 4 48000).level ≠ 1 := by
  refine ⟨?_, ?_, ?_⟩
  · intro h
    apply ten_rpow_ne_thirty
    rw [← h]
    simp only [make_overdrive]
    norm_num
  · simp only [make_overdrive]
    norm_num
  · simp only [make_overdrive]
    norm_num

/-- C9 (amended): the engine returned by `make_overdrive` has `gain = 30`
(the linear factor itself), `tone = 0.5`, `level = 0.5` and `bypass = true`. -/
theorem make_overdrive_defaults (expf : α → α) (M_PI : α) (od : overdrive α)
    (oversample bsz : Nat) (fs : α) :
    (make_overdrive expf M_PI od oversample bsz fs).gain = 30
      ∧ (make_overdrive expf M_PI od oversample bsz fs).tone = 0.5
      ∧ (make_overdrive expf M_PI od oversample bsz fs).level = 0.5
      ∧ (make_overdrive expf M_PI od oversample bsz fs).bypass = true := by
  simp only [make_overdrive]
  norm_num

/-- C10: the engine returned by `make_overdrive` has `fs = oversample * fs`,
`blksz = bsz`, and its four filters are the solver's records at that rate:
high-pass at 720, low-pass at 800, low-pass at 1200 and high-pass at 700, each
with zero history. -/
theorem make_overdrive_filters (expf : α → α) (M_PI : α) (od : overdrive α)
    (oversample bsz : Nat) (fs : α) :
    (make_overdrive expf M_PI od oversample bsz fs).fs = (oversample : α) * fs
      ∧ (make_overdrive expf M_PI od oversample bsz fs).blksz = bsz
      ∧ (∀ cf, (make_overdrive expf M_PI od oversample bsz fs).pre_emph
          = compute_filter_coeffs expf M_PI cf FilterType.HPF1P
              ((oversample : α) * fs) 720)
      ∧ (∀ cf, (make_overdrive expf M_PI od oversample bsz fs).post_emph
          = compute_filter_coeffs expf M_PI cf FilterType.LPF1P
              ((oversample : α) * fs) 800)
      ∧ (∀ cf, (make_overdrive expf M_PI od oversample bsz fs).tone_lp
          = compute_filter_coeffs expf M_PI cf FilterType.LPF1P
              ((oversample : α) * fs) 1200)
      ∧ (∀ cf, (make_overdrive expf M_PI od oversample bsz fs).tone_hp
          = compute_filter_coeffs expf M_PI cf FilterType.HPF1P
              ((oversample : α) * fs) 700)
      ∧ (make_overdrive expf M_PI od oversample bsz fs).pre_emph.x1 = 0
      ∧ (make_overdrive expf M_PI od oversample bsz fs).pre_emph.y1 = 0
      ∧ (make_overdrive expf M_PI od oversample bsz fs).post_emph.x1 = 0
      ∧ (make_overdrive expf M_PI od oversample bsz fs).post_emph.y1 = 0
      ∧ (make_overdrive expf M_PI od oversample bsz fs).tone_lp.x1 = 0
      ∧ (make_overdrive expf M_PI od oversample bsz fs).tone_lp.y1 = 0
      ∧ (make_overdrive expf M_PI od oversample bsz fs).tone_hp.x1 = 0
      ∧ (make_overdrive expf M_PI od oversample bsz fs).tone_hp.y1 = 0 := by
  have e720 : (720.0 : α) = 720 := by norm_num
  have e800 : (800.0 : α) = 800 := by norm_num
  have e1200 : (1200.0 : α) = 1200 := by norm_num
  have e700 : (700.0 : α) = 700 := by norm_num
  have hpre : ∀ cf, (make_overdrive expf M_PI od oversample bsz fs).pre_emph
      = compute_filter_coeffs expf M_PI cf FilterType.HPF1P
          ((oversample : α) * fs) 720 := by
    intro cf
    simp only [make_overdrive, e720]
    exact compute_filter_coeffs_indep _ _ _ _ _ _ _
  have hpost : ∀ cf, (make_overdrive expf M_PI od oversample bsz fs).post_emph
      = compute_filter_coeffs expf M_PI cf FilterType.LPF1P
          ((oversample : α) * fs) 800 := by
    intro cf
    simp only [make_overdrive, e800]
    exact compute_filter_coeffs_indep _ _ _ _ _ _ _
  have hlp : ∀ cf, (make_overdrive expf M_PI od oversample bsz fs).tone_lp
      = compute_filter_coeffs expf M_PI cf FilterType.LPF1P
          ((oversample : α) * fs) 1200 := by
    intro cf
    simp only [make_overdrive, e1200]
    exact compute_filter_coeffs_indep _ _ _ _ _ _ _
  have hhp : ∀ cf, (make_overdrive expf M_PI od oversample bsz fs).tone_hp
      = compute_filter_coeffs expf M_PI cf FilterType.HPF1P
          ((oversample : α) * fs) 700 := by
    intro cf
    simp only [make_overdrive, e700]
    exact compute_filter_coeffs_indep _ _ _ _ _ _ _
  refine ⟨rfl, rfl, hpre, hpost, hlp, hhp, ?_, ?_, ?_, ?_, ?_, ?_, ?_, ?_⟩
  · rw [hpre zeroFilter, compute_filter_coeffs_hpf]
  · rw [hpre zeroFilter, compute_filter_coeffs_hpf]
  · rw [hpost zeroFilter, compute_filter_coeffs_lpf]
  · rw [hpost zeroFilter, compute_filter_coeffs_lpf]
  · rw [hlp zeroFilter, compute_filter_coeffs_lpf]
  · rw [hlp zeroFilter, compute_filter_coeffs_lpf]
  · rw [hhp zeroFilter, compute_filter_coeffs_hpf]
  · rw [hhp zeroFilter, compute_filter_coeffs_hpf]

/-! ## One-pole filter -/

/-- Feeding zeros to a filter with zero history leaves it as it is and
returns zero. -/
theorem filter_run_silence (flt : iir_1p α) (u : Nat → α) (n : Nat)
    (hx : flt.x1 = 0) (hy : flt.y1 = 0) (hu : ∀ j, j < n → u j = 0) :
    filter_run flt u n = flt := by
  induction n with
  | zero => rfl
  | succ k ih =>
    have hk : filter_run flt u k = flt := ih (fun j hj => hu j (by omega))
    have huk : u k = 0 := hu k (by omega)
    show (tick_filter_1p (filter_run flt u k) (u k)).1 = flt
    rw [hk, huk]
    cases flt with
    | mk b0 b1 a1 x1 y1 =>
      simp only at hx hy
      subst hx
      subst hy
      simp [tick_filter_1p]

theorem filter_out_silence (flt : iir_1p α) (u : Nat → α) (n : Nat)
    (hx : flt.x1 = 0) (hy : flt.y1 = 0) (hu : ∀ j, j < n + 1 → u j = 0) :
    filter_out flt u n = 0 := by
  unfold filter_out
  rw [filter_run_silence flt u n hx hy (fun j hj => hu j (by omega)),
    hu n (by omega)]
  simp [tick_filter_1p, hx, hy]

/-- C11: a filter with any coefficients and zero history, ticked with input 0
any number of times, returns 0 at every call and keeps `x1 = 0`, `y1 = 0`. -/
theorem tick_filter_1p_silence (b0 b1 a1 : α) (n : Nat) :
    filter_out ⟨b0, b1, a1, 0, 0⟩ (fun _ => 0) n = 0
      ∧ (tick_filter_1p (filter_run ⟨b0, b1, a1, 0, 0⟩ (fun _ => 0) n) 0).2 = 0
      ∧ (filter_run ⟨b0, b1, a1, 0, 0⟩ (fun _ => 0) n).x1 = 0
      ∧ (filter_run ⟨b0, b1, a1, 0, 0⟩ (fun _ => 0) n).y1 = 0
      ∧ filter_run ⟨b0, b1, a1, 0, 0⟩ (fun _ => 0) n = ⟨b0, b1, a1, 0, 0⟩ := by
  have hr : filter_run ⟨b0, b1, a1, 0, 0⟩ (fun _ => (0 : α)) n = ⟨b0, b1, a1, 0, 0⟩ :=
    filter_run_silence _ _ n rfl rfl (fun _ _ => rfl)
  have ho : filter_out ⟨b0, b1, a1, 0, 0⟩ (fun _ => (0 : α)) n = 0 :=
    filter_out_silence _ _ n rfl rfl (fun _ _ => rfl)
  refine ⟨ho, ho, ?_, ?_, hr⟩
  · rw [hr]
  · rw [hr]

/-- C16: `tick_filter_1p` returns `y = b0*x + b1*x1 + a1*y1` and leaves the
filter with `x1 = x`, `y1 = y` and the coefficients unchanged. -/
theorem tick_filter_1p_recurrence (b0 b1 a1 x1 y1 x : α) :
    (tick_filter_1p ⟨b0, b1, a1, x1, y1⟩ x).2 = b0 * x + b1 * x1 + a1 * y1
      ∧ (tick_filter_1p ⟨b0, b1, a1, x1, y1⟩ x).1
          = ⟨b0, b1, a1, x, b0 * x + b1 * x1 + a1 * y1⟩ := by
  constructor <;> rfl

/-- C19: the solver's low-pass record has `b0 + b1 = 1 - a1`, so a low-pass
filter at rest on the constant `c` returns `c`; its high-pass record has
`b0 + b1 = 0`, so a high-pass filter with `x1 = c`, `y1 = 0` fed `c` returns 0. -/
theorem compute_filter_coeffs_dc_gain (expf : α → α) (M_PI : α) (cf : iir_1p α)
    (fs f0 c : α) :
    (compute_filter_coeffs expf M_PI cf FilterType.LPF1P fs f0).b0
        + (compute_filter_coeffs expf M_PI cf FilterType.LPF1P fs f0).b1
        = 1 - (compute_filter_coeffs expf M_PI cf FilterType.LPF1P fs f0).a1
      ∧ (tick_filter_1p
          { compute_filter_coeffs expf M_PI cf FilterType.LPF1P fs f0 with
            x1 := c, y1 := c } c).2 = c
      ∧ (compute_filter_coeffs expf M_PI cf FilterType.HPF1P fs f0).b0
        + (compute_filter_coeffs expf M_PI cf FilterType.HPF1P fs f0).b1 = 0
      ∧ (tick_filter_1p
          { compute_filter_coeffs expf M_PI cf FilterType.HPF1P fs f0 with
            x1 := c, y1 := 0 } c).2 = 0 := by
  rw [compute_filter_coeffs_lpf, compute_filter_coeffs_hpf]
  refine ⟨?_, ?_, ?_, ?_⟩
  · norm_num
    ring
  · simp only [tick_filter_1p]
    norm_num
    ring
  · norm_num
  · simp only [tick_filter_1p]
    norm_num

theorem filter_out_eq_y1 (flt : iir_1p α) (u : Nat → α) (i : Nat) :
    filter_out flt u i = (filter_run flt u (i + 1)).y1 := rfl

theorem impulse_run (b0 b1 a1 : α) (n : Nat) :
    filter_run ⟨b0, b1, a1, 0, 0⟩ impulse (n + 2)
      = ⟨b0, b1, a1, 0, a1 ^ n * (b1 + a1 * b0)⟩ := by
  induction n with
  | zero =>
    simp [filter_run, tick_filter_1p, impulse]
  | succ k ih =>
    show (tick_filter_1p (filter_run ⟨b0, b1, a1, 0, 0⟩ impulse (k + 2))
      (impulse (k + 2))).1 = _
    rw [ih]
    simp [tick_filter_1p, impulse]
    ring

theorem impulse_out_zero (b0 b1 a1 : α) :
    filter_out ⟨b0, b1, a1, 0, 0⟩ impulse 0 = b0 := by
  simp [filter_out, filter_run, tick_filter_1p, impulse]

theorem impulse_out_succ (b0 b1 a1 : α) (n : Nat) :
    filter_out ⟨b0, b1, a1, 0, 0⟩ impulse (n + 1) = a1 ^ n * (b1 + a1 * b0) := by
  rw [filter_out_eq_y1, impulse_run]

/-- C12: from zero history the response to the unit impulse is `y[0] = b0`,
`y[1] = b1 + a1*b0`, `y[n+2] = a1*y[n+1]`, that is
`y[n+1] = a1^n * (b1 + a1*b0)`; when `|a1| < 1` it decays with ratio `|a1|`
and `|y[n]|` tends to 0. -/
theorem impulse_response (b0 b1 a1 : ℝ) :
    filter_out ⟨b0, b1, a1, 0, 0⟩ impulse 0 = b0
      ∧ filter_out ⟨b0, b1, a1, 0, 0⟩ impulse 1 = b1 + a1 * b0
      ∧ (∀ n, filter_out ⟨b0, b1, a1, 0, 0⟩ impulse (n + 2)
          = a1 * filter_out ⟨b0, b1, a1, 0, 0⟩ impulse (n + 1))
      ∧ (∀ n, filter_out ⟨b0, b1, a1, 0, 0⟩ impulse (n + 1)
          = a1 ^ n * (b1 + a1 * b0))
      ∧ (|a1| < 1 →
          (∀ n, |filter_out ⟨b0, b1, a1, 0, 0⟩ impulse (n + 2)|
            ≤ |a1| * |filter_out ⟨b0, b1, a1, 0, 0⟩ impulse (n + 1)|)
          ∧ Filter.Tendsto (fun n => |filter_out ⟨b0, b1, a1, 0, 0⟩ impulse n|)
              Filter.atTop (nhds 0)) := by
  refine ⟨impulse_out_zero b0 b1 a1, ?_, ?_, impulse_out_succ b0 b1 a1, ?_⟩
  · rw [impulse_out_succ]
    simp
  · intro n
    rw [impulse_out_succ, impulse_out_succ]
    ring
  · intro ha
    constructor
    · intro n
      rw [impulse_out_succ, impulse_out_succ, ← abs_mul]
      apply le_of_eq
      congr 1
      ring
    · rw [← Filter.tendsto_add_atTop_iff_nat 1]
      have h1 : Filter.Tendsto (fun n : ℕ => |a1| ^ n * |b1 + a1 * b0|)
          Filter.atTop (nhds (0 * |b1 + a1 * b0|)) :=
        (tendsto_pow_atTop_nhds_zero_of_lt_one (abs_nonneg a1) ha).mul_const _
      rw [zero_mul] at h1
      refine h1.congr ?_
      intro n
      rw [impulse_out_succ, abs_mul, abs_pow]

theorem impulse_response_witness :
    |(1 / 2 : ℝ)| < 1
      ∧ |filter_out ⟨1, 1 / 4, 1 / 2, 0, 0⟩ (impulse : Nat → ℝ) 2|
          ≤ |(1 / 2 : ℝ)| * |filter_out ⟨1, 1 / 4, 1 / 2, 0, 0⟩ (impulse : Nat → ℝ) 1|
      ∧ Filter.Tendsto
          (fun n => |filter_out ⟨1, 1 / 4, 1 / 2, 0, 0⟩ (impulse : Nat → ℝ) n|)
          Filter.atTop (nhds 0) :=
  have ha : |(1 / 2 : ℝ)| < 1 := by rw [abs_of_pos (by norm_num)]; norm_num
  ⟨ha, ((impulse_response 1 (1 / 4) (1 / 2)).2.2.2.2 ha).1 0,
    ((impulse_response 1 (1 / 4) (1 / 2)).2.2.2.2 ha).2⟩

/-! ## Clipper transfer curves -/

theorem clipper_sample_low (x : α) (h : x ≤ -1.12) : clipper_sample x = -0.644 := by
  have c1 : ¬ (x ≥ 1.2) := by intro h1; linarith
  have c3 : ¬ ((-1.12 : α) > 0.8) := by norm_num
  have c4 : (-1.12 : α) < -0.72 := by norm_num
  unfold clipper_sample thrs nthrs f sqr
  simp only []
  rw [if_neg c1, if_pos h, if_neg c3, if_pos c4]
  norm_num

theorem clipper_sample_high (x : α) (h : 1.2 ≤ x) : clipper_sample x = 0.7 := by
  have c1 : x ≥ 1.2 := h
  have c2 : ¬ ((1.2 : α) ≤ -1.12) := by norm_num
  have c3 : (1.2 : α) > 0.8 := by norm_num
  have c4 : ¬ ((1.2 : α) - 1.25 * ((1.2 - 0.8) * (1.2 - 0.8)) < -0.72) := by norm_num
  unfold clipper_sample thrs nthrs f sqr
  simp only []
  rw [if_pos c1, if_neg c2, if_pos c3, if_neg c4]
  norm_num

theorem clipper_sample_mid (x : α) (h1 : -0.72 ≤ x) (h2 : x ≤ 0.8) :
    clipper_sample x = 0.7 * x := by
  have c1 : ¬ (x ≥ 1.2) := by intro h; linarith
  have c2 : ¬ (x ≤ -1.12) := by intro h; linarith
  have c3 : ¬ (x > 0.8) := by intro h; linarith
  have c4 : ¬ (x < -0.72) := by intro h; linarith
  unfold clipper_sample thrs nthrs f sqr
  simp only []
  rw [if_neg c1, if_neg c2, if_neg c3, if_neg c4]
  ring

theorem clipper_sample_knee_pos (x : α) (h1 : 0.8 < x) (h2 : x < 1.2) :
    clipper_sample x = (x - 1.25 * ((x - 0.8) * (x - 0.8))) * 0.7 := by
  have c1 : ¬ (x ≥ 1.2) := by intro h; linarith
  have c2 : ¬ (x ≤ -1.12) := by intro h; linarith
  have c3 : x > 0.8 := h1
  have c4 : ¬ (x - 1.25 * ((x - 0.8) * (x - 0.8)) < -0.72) := by
    intro h
    nlinarith [mul_pos (sub_pos.2 h1) (sub_pos.2 h2)]
  unfold clipper_sample thrs nthrs f sqr
  simp only []
  rw [if_neg c1, if_neg c2, if_pos c3, if_neg c4]

theorem clipper_sample_knee_neg (x : α) (h1 : -1.12 < x) (h2 : x < -0.72) :
    clipper_sample x = (x + 1.25 * ((x - -0.72) * (x - -0.72))) * 0.7 := by
  have c1 : ¬ (x ≥ 1.2) := by intro h; linarith
  have c2 : ¬ (x ≤ -1.12) := by intro h; linarith
  have c3 : ¬ (x > 0.8) := by intro h; linarith
  unfold clipper_sample thrs nthrs f sqr
  simp only []
  rw [if_neg c1, if_neg c2, if_neg c3, if_pos h2]

theorem clipper_sample_mono (u v : α) (h : u ≤ v) :
    clipper_sample u ≤ clipper_sample v := by
  have lo : ∀ z : α, -0.644 ≤ clipper_sample z := clipper_sample_lower
  have hi : ∀ z : α, clipper_sample z ≤ 0.7 := clipper_sample_upper
  rcases le_or_lt u (-1.12) with hu1 | hu1
  · rw [clipper_sample_low u hu1]; exact lo v
  rcases le_or_lt 1.2 v with hv4 | hv4
  · rw [clipper_sample_high v hv4]; exact hi u
  rcases lt_or_le u (-0.72) with hu2 | hu2
  · rw [clipper_sample_knee_neg u hu1 hu2]
    rcases lt_or_le v (-0.72) with hv2 | hv2
    · rw [clipper_sample_knee_neg v (lt_of_lt_of_le hu1 h) hv2]
      nlinarith [mul_nonneg (sub_nonneg.2 h) (add_pos (sub_pos.2 hu1) (sub_pos.2 (lt_of_lt_of_le hu1 h))).le]
    rcases le_or_lt v 0.8 with hv3 | hv3
    · rw [clipper_sample_mid v hv2 hv3]
      nlinarith [mul_nonneg (sub_nonneg.2 hu2.le) (sub_pos.2 hu1).le]
    · rw [clipper_sample_knee_pos v hv3 hv4]
      nlinarith [mul_nonneg (sub_nonneg.2 hu2.le) (sub_pos.2 hu1).le,
        mul_nonneg (sub_pos.2 hv3).le (sub_pos.2 hv4).le]
  rcases le_or_lt u 0.8 with hu3 | hu3
  · rw [clipper_sample_mid u hu2 hu3]
    rcases le_or_lt v 0.8 with hv3 | hv3
    · rw [clipper_sample_mid v (le_trans hu2 h) hv3]
      linarith
    · rw [clipper_sample_knee_pos v hv3 hv4]
      nlinarith [mul_nonneg (sub_pos.2 hv3).le (sub_pos.2 hv4).le]
  · rw [clipper_sample_knee_pos u hu3 (lt_of_le_of_lt h hv4),
      clipper_sample_knee_pos v (lt_of_lt_of_le hu3 h) hv4]
    nlinarith [mul_nonneg (sub_nonneg.2 h)
      (add_pos (sub_pos.2 hv4) (sub_pos.2 (lt_of_le_of_lt h hv4))).le]

/-- C18: the per-sample transfer function of `clipper_tick` is monotone
non-decreasing; on `[-0.72, 0.8]` it is `0.7*x`, it is 0.7 from 1.2 upwards and
-0.644 from -1.12 downwards. -/
theorem clipper_tick_monotone (N : Int) (x y : Nat → α) (i : Nat)
    (hi : (i : Int) < N) (hxy : x i ≤ y i) :
    clipper_tick N x i ≤ clipper_tick N y i
      ∧ (-0.72 ≤ x i → x i ≤ 0.8 → clipper_tick N x i = 0.7 * x i)
      ∧ (1.2 ≤ x i → clipper_tick N x i = 0.7)
      ∧ (x i ≤ -1.12 → clipper_tick N x i = -0.644) := by
  have hlt : i < N.toNat := by omega
  have ex : clipper_tick N x i = clipper_sample (x i) := by
    unfold clipper_tick
    rw [clipper_loop_apply, if_pos hlt]
  have ey : clipper_tick N y i = clipper_sample (y i) := by
    unfold clipper_tick
    rw [clipper_loop_apply, if_pos hlt]
  rw [ex, ey]
  exact ⟨clipper_sample_mono _ _ hxy, clipper_sample_mid _, clipper_sample_high _,
    clipper_sample_low _⟩

theorem clipper_tick_monotone_witness :
    ((0 : Nat) : Int) < 1 ∧ (1 / 2 : ℚ) ≤ 1
      ∧ clipper_tick 1 (fun _ => (1 / 2 : ℚ)) 0 ≤ clipper_tick 1 (fun _ => (1 : ℚ)) 0
      ∧ clipper_tick 1 (fun _ => (1 / 2 : ℚ)) 0 = 0.7 * (1 / 2) :=
  ⟨by decide, by norm_num,
    (clipper_tick_monotone 1 (fun _ => (1 / 2 : ℚ)) (fun _ => (1 : ℚ)) 0
      (by decide) (by norm_num)).1,
    (clipper_tick_monotone 1 (fun _ => (1 / 2 : ℚ)) (fun _ => (1 : ℚ)) 0
      (by decide) (by norm_num)).2.1 (by norm_num) (by norm_num)⟩

/-- A loop that rewrites each sample in place by `g` maps every index below
the bound and leaves the others. -/
theorem map_loop_apply {β : Type} (g : β → β) (n : Nat) (x : Nat → β) (i : Nat) :
    forLoop n (fun i x => Function.update x i (g (x i))) x i
      = if i < n then g (x i) else x i := by
  induction n with
  | zero => simp [forLoop]
  | succ k ih =>
    rw [forLoop_succ]
    by_cases hik : i = k
    · subst hik
      simp [ih]
    · rw [Function.update_noteq hik, ih]
      have : i < k + 1 ↔ i < k := by omega
      simp [this]

theorem cubic_sample_bounds (asym x : α) :
    -2 / 3 ≤ cubic_sample asym x ∧ cubic_sample asym x ≤ 2 / 3 := by
  unfold cubic_sample
  simp only []
  split_ifs with h1 h2 h3
  · norm_num
  · obtain ⟨ha, hb⟩ := h2
    have ha2 : -1 < x + asym := by norm_num at ha; exact ha
    have hb2 : x + asym < 1 := by norm_num at hb; exact hb
    constructor
    · nlinarith [mul_nonneg (sq_nonneg (x + asym + 1)) (by linarith : (0 : α) ≤ 2 - (x + asym))]
    · nlinarith [mul_nonneg (sq_nonneg (x + asym - 1)) (by linarith : (0 : α) ≤ 2 + (x + asym))]
  · norm_num
  · exfalso
    have h1b : -1 < x + asym := by
      have := not_le.1 h1
      norm_num at this
      exact this
    have h3b : x + asym < 1 := by
      have := not_le.1 h3
      norm_num at this
      exact this
    apply h2
    constructor
    · norm_num; exact h1b
    · norm_num; exact h3b

theorem cubic_sample_inner (asym x : α) (h1 : -1 < x + asym) (h2 : x + asym < 1) :
    cubic_sample asym x = (x + asym) - (x + asym) ^ 3 / 3 := by
  have c1 : ¬ (x + asym ≤ -1.0) := by intro h; norm_num at h; linarith
  have c2 : x + asym > -1.0 ∧ x + asym < 1.0 := by
    constructor
    · norm_num; exact h1
    · norm_num; exact h2
  unfold cubic_sample
  simp only []
  rw [if_neg c1, if_pos c2]
  norm_num
  ring

/-- C20: after `cubic_clip(N, asym, x)`, for a 32-bit `int` count `N`, each
of the first `N` samples lies in `[-2/3, 2/3]`, and equals
`(x+asym) - (x+asym)^3/3` whenever `-1 < x+asym < 1`. -/
theorem cubic_clip_range (N : Int) (asym : α) (x : Nat → α) (i : Nat)
    (hN : N < 2147483648) (hi : (i : Int) < N) :
    -2 / 3 ≤ cubic_clip N asym x i ∧ cubic_clip N asym x i ≤ 2 / 3
      ∧ (-1 < x i + asym → x i + asym < 1 →
          cubic_clip N asym x i = (x i + asym) - (x i + asym) ^ 3 / 3) := by
  have hlt : i < (N % 4294967296).toNat := by omega
  have e : cubic_clip N asym x i = cubic_sample asym (x i) := by
    unfold cubic_clip
    rw [map_loop_apply (cubic_sample asym), if_pos hlt]
  rw [e]
  exact ⟨(cubic_sample_bounds asym (x i)).1, (cubic_sample_bounds asym (x i)).2,
    cubic_sample_inner asym (x i)⟩

theorem cubic_clip_range_witness :
    (2 : Int) < 2147483648 ∧ ((1 : Nat) : Int) < 2
      ∧ -2 / 3 ≤ cubic_clip 2 (1 / 4) (fun _ => (1 / 4 : ℚ)) 1
      ∧ cubic_clip 2 (1 / 4) (fun _ => (1 / 4 : ℚ)) 1 ≤ 2 / 3
      ∧ cubic_clip 2 (1 / 4) (fun _ => (1 / 4 : ℚ)) 1
          = ((1 / 4 : ℚ) + 1 / 4) - ((1 / 4 : ℚ) + 1 / 4) ^ 3 / 3 :=
  ⟨by decide, by decide,
    (cubic_clip_range 2 (1 / 4) (fun _ => (1 / 4 : ℚ)) 1 (by decide) (by decide)).1,
    (cubic_clip_range 2 (1 / 4) (fun _ => (1 / 4 : ℚ)) 1 (by decide) (by decide)).2.1,
    (cubic_clip_range 2 (1 / 4) (fun _ => (1 / 4 : ℚ)) 1 (by decide) (by decide)).2.2
      (by norm_num) (by norm_num)⟩

/-! ## Block processing -/

/-- The first loop of `overdrive_tick` after `k` iterations. -/
theorem pre_loop_eq (od : overdrive α) (x : Nat → α) (k : Nat) :
    forLoop k (fun i (od : overdrive α) =>
        let r := tick_filter_1p od.pre_emph (od.gain * x i)
        { od with pre_emph := r.1, procbuf := Function.update od.procbuf i r.2 }) od
      = { od with
          pre_emph := filter_run od.pre_emph (fun j => od.gain * x j) k,
          procbuf := fun i => if i < k then spec_s od x i else od.procbuf i } := by
  induction k with
  | zero => simp [forLoop, filter_run]
  | succ k ih =>
    rw [forLoop_succ, ih]
    simp only [filter_run, overdrive.mk.injEq, true_and, and_true]
    funext i
    by_cases hik : i = k
    · subst hik
      simp [spec_s, filter_out]
    · rw [Function.update_noteq hik]
      have : i < k + 1 ↔ i < k := by omega
      simp [this]

/-- The mixing loop of `overdrive_tick` after `k` iterations. -/
theorem mix_loop_eq (pb x : Nat → α) (k : Nat) :
    forLoop k (fun i x => Function.update x i (x i + pb i)) x
      = fun i => if i < k then x i + pb i else x i := by
  induction k with
  | zero => simp [forLoop]
  | succ k ih =>
    rw [forLoop_succ, ih]
    funext i
    by_cases hik : i = k
    · subst hik
      simp
    · rw [Function.update_noteq hik]
      have : i < k + 1 ↔ i < k := by omega
      simp [this]

/-- The last loop of `overdrive_tick` after `k` iterations, started on the
mixed block `m`. -/
theorem post_loop_eq (od : overdrive α) (m : Nat → α) (k : Nat) :
    forLoop k (fun i (s : overdrive α × (Nat → α)) =>
        let od := s.1
        let x := s.2
        let r := tick_filter_1p od.post_emph (od.level * x i)
        let od := { od with post_emph := r.1 }
        let x := Function.update x i r.2
        let rl := tick_filter_1p od.tone_lp (x i)
        let rh := tick_filter_1p od.tone_hp (x i)
        let od := { od with tone_lp := rl.1, tone_hp := rh.1 }
        (od, Function.update x i (rl.2 + od.tone * rh.2))) (od, m)
      = ({ od with
            post_emph := filter_run od.post_emph (fun j => od.level * m j) k,
            tone_lp := filter_run od.tone_lp
              (filter_out od.post_emph (fun j => od.level * m j)) k,
            tone_hp := filter_run od.tone_hp
              (filter_out od.post_emph (fun j => od.level * m j)) k },
          fun i => if i < k then
              filter_out od.tone_lp
                  (filter_out od.post_emph (fun j => od.level * m j)) i
                + od.tone * filter_out od.tone_hp
                  (filter_out od.post_emph (fun j => od.level * m j)) i
            else m i) := by
  induction k with
  | zero => simp [forLoop, filter_run]
  | succ k ih =>
    rw [forLoop_succ, ih]
    simp only [filter_run, Function.update_same, Function.update_idem,
      lt_irrefl, if_false, Prod.mk.injEq]
    refine ⟨rfl, ?_⟩
    funext i
    by_cases hik : i = k
    · subst hik
      simp [filter_out]
    · rw [Function.update_noteq hik]
      have : i < k + 1 ↔ i < k := by omega
      simp [this]

theorem filter_run_congr (flt : iir_1p α) (u v : Nat → α) (n : Nat)
    (h : ∀ j, j < n → u j = v j) : filter_run flt u n = filter_run flt v n := by
  induction n with
  | zero => rfl
  | succ k ih =>
    show (tick_filter_1p (filter_run flt u k) (u k)).1
      = (tick_filter_1p (filter_run flt v k) (v k)).1
    rw [ih (fun j hj => h j (by omega)), h k (by omega)]

theorem filter_out_congr (flt : iir_1p α) (u v : Nat → α) (i : Nat)
    (h : ∀ j, j < i + 1 → u j = v j) : filter_out flt u i = filter_out flt v i := by
  unfold filter_out
  rw [filter_run_congr flt u v i (fun j hj => h j (by omega)), h i (by omega)]

/-- The whole of `overdrive_tick` on an engine that is not bypassed. -/
theorem overdrive_tick_eq (od : overdrive α) (x : Nat → α) (h : od.bypass = false) :
    overdrive_tick od x
      = ({ od with
            pre_emph := filter_run od.pre_emph (fun j => od.gain * x j) od.blksz,
            procbuf := tick_procbuf od x,
            post_emph := filter_run od.post_emph
              (fun j => od.level * tick_mixed od x j) od.blksz,
            tone_lp := filter_run od.tone_lp
              (filter_out od.post_emph (fun j => od.level * tick_mixed od x j))
              od.blksz,
            tone_hp := filter_run od.tone_hp
              (filter_out od.post_emph (fun j => od.level * tick_mixed od x j))
              od.blksz },
          fun i => if i < od.blksz then
              filter_out od.tone_lp
                  (filter_out od.post_emph (fun j => od.level * tick_mixed od x j)) i
                + od.tone * filter_out od.tone_hp
                  (filter_out od.post_emph (fun j => od.level * tick_mixed od x j)) i
            else tick_mixed od x i) := by
  unfold overdrive_tick
  simp only [h, Bool.false_eq_true, if_false]
  rw [pre_loop_eq, mix_loop_eq, post_loop_eq]
  simp only [tick_procbuf, tick_mixed, h]

theorem tick_procbuf_eq (od : overdrive α) (x : Nat → α) (i : Nat) (hi : i < od.blksz) :
    tick_procbuf od x i = spec_c od x i := by
  unfold tick_procbuf spec_c clipper_tick
  rw [clipper_loop_apply, clipper_loop_apply]
  have hlt : i < ((od.blksz : Int)).toNat := by simpa using hi
  rw [if_pos hlt, if_pos hlt, if_pos hi]

theorem tick_mixed_eq (od : overdrive α) (x : Nat → α) (i : Nat) (hi : i < od.blksz) :
    tick_mixed od x i = spec_m od x i := by
  unfold tick_mixed spec_m
  rw [if_pos hi, tick_procbuf_eq od x i hi]

theorem tick_post_eq (od : overdrive α) (x : Nat → α) (i : Nat) (hi : i < od.blksz) :
    filter_out od.post_emph (fun j => od.level * tick_mixed od x j) i = spec_p od x i := by
  unfold spec_p
  apply filter_out_congr
  intro j hj
  rw [tick_mixed_eq od x j (by omega)]

/-- C15: on an engine that is not bypassed, `overdrive_tick` computes the
signal path `s` (pre-emphasis of `gain*x`), `c` (clipper on `s`),
`m = x + c`, `p` (post-emphasis of `level*m`) and
`out = tone_lp(p) + tone * tone_hp(p)`; the first `blksz` scratch entries hold
`c`, each filter has advanced by `blksz` ticks of its own input, and nothing
else changes. -/
theorem overdrive_tick_signal_path (od : overdrive α) (x : Nat → α)
    (h : od.bypass = false) :
    (∀ i, i < od.blksz → (overdrive_tick od x).2 i = spec_out od x i)
      ∧ (∀ i, od.blksz ≤ i → (overdrive_tick od x).2 i = x i)
      ∧ (∀ i, i < od.blksz → (overdrive_tick od x).1.procbuf i = spec_c od x i)
      ∧ (overdrive_tick od x).1.pre_emph
          = filter_run od.pre_emph (fun j => od.gain * x j) od.blksz
      ∧ (overdrive_tick od x).1.post_emph
          = filter_run od.post_emph (fun j => od.level * spec_m od x j) od.blksz
      ∧ (overdrive_tick od x).1.tone_lp
          = filter_run od.tone_lp (spec_p od x) od.blksz
      ∧ (overdrive_tick od x).1.tone_hp
          = filter_run od.tone_hp (spec_p od x) od.blksz
      ∧ (overdrive_tick od x).1.gain = od.gain
      ∧ (overdrive_tick od x).1.tone = od.tone
      ∧ (overdrive_tick od x).1.level = od.level
      ∧ (overdrive_tick od x).1.bypass = od.bypass
      ∧ (overdrive_tick od x).1.blksz = od.blksz
      ∧ (overdrive_tick od x).1.fs = od.fs := by
  rw [overdrive_tick_eq od x h]
  refine ⟨?_, ?_, ?_, rfl, ?_, ?_, ?_, rfl, rfl, rfl, rfl, rfl, rfl⟩
  · intro i hi
    simp only [if_pos hi, spec_out]
    rw [filter_out_congr od.tone_lp _ (spec_p od x) i
        (fun j hj => tick_post_eq od x j (by omega)),
      filter_out_congr od.tone_hp _ (spec_p od x) i
        (fun j hj => tick_post_eq od x j (by omega))]
  · intro i hi
    have hn : ¬ i < od.blksz := by omega
    simp only [if_neg hn, tick_mixed]
  · intro i hi
    exact tick_procbuf_eq od x i hi
  · exact filter_run_congr _ _ _ _
      (fun j hj => by rw [tick_mixed_eq od x j hj])
  · exact filter_run_congr _ _ _ _ (fun j hj => tick_post_eq od x j hj)
  · exact filter_run_congr _ _ _ _ (fun j hj => tick_post_eq od x j hj)

theorem overdrive_tick_signal_path_witness :
    demo_engine.bypass = false
      ∧ (overdrive_tick demo_engine (fun _ => 1)).2 0
          = spec_out demo_engine (fun _ => 1) 0
      ∧ (overdrive_tick demo_engine (fun _ => 1)).2 1
          = spec_out demo_engine (fun _ => 1) 1
      ∧ (overdrive_tick demo_engine (fun _ => 1)).1.procbuf 1
          = spec_c demo_engine (fun _ => 1) 1
      ∧ (overdrive_tick demo_engine (fun _ => 1)).1.tone_hp
          = filter_run demo_engine.tone_hp (spec_p demo_engine (fun _ => 1)) 2 :=
  ⟨rfl,
    (overdrive_tick_signal_path demo_engine (fun _ => 1) rfl).1 0 (by decide),
    (overdrive_tick_signal_path demo_engine (fun _ => 1) rfl).1 1 (by decide),
    (overdrive_tick_signal_path demo_engine (fun _ => 1) rfl).2.2.1 1 (by decide),
    (overdrive_tick_signal_path demo_engine (fun _ => 1) rfl).2.2.2.2.2.2.1⟩

/-! ## Silence and the end-to-end scenarios -/

theorem clipper_sample_zero : clipper_sample (0 : α) = 0 := by
  rw [clipper_sample_mid 0 (by norm_num) (by norm_num)]
  simp

theorem overdrive_tick_params (od : overdrive α) (x : Nat → α) :
    (overdrive_tick od x).1.gain = od.gain
      ∧ (overdrive_tick od x).1.tone = od.tone
      ∧ (overdrive_tick od x).1.level = od.level := by
  cases h : od.bypass
  · rw [overdrive_tick_eq od x h]
    exact ⟨rfl, rfl, rfl⟩
  · have e : overdrive_tick od x = (od, x) := by
      unfold overdrive_tick
      simp [h]
    rw [e]
    exact ⟨rfl, rfl, rfl⟩

/-- Zero block and zero histories: the intermediate signals of
`overdrive_tick` vanish on the block. -/
theorem tick_mixed_silence (od : overdrive α) (x : Nat → α)
    (h1 : od.pre_emph.x1 = 0) (h2 : od.pre_emph.y1 = 0)
    (hx : ∀ i, i < od.blksz → x i = 0) (j : Nat) (hj : j < od.blksz) :
    tick_mixed od x j = 0 := by
  rw [tick_mixed_eq od x j hj]
  unfold spec_m spec_c clipper_tick
  have hlt : j < ((od.blksz : Int)).toNat := by simpa using hj
  rw [clipper_loop_apply, if_pos hlt, hx j hj]
  have hs : spec_s od x j = 0 := by
    unfold spec_s
    apply filter_out_silence _ _ _ h1 h2
    intro k hk
    show od.gain * x k = 0
    rw [hx k (by omega), mul_zero]
  rw [hs, clipper_sample_zero, add_zero]

theorem tick_post_silence (od : overdrive α) (x : Nat → α)
    (h1 : od.pre_emph.x1 = 0) (h2 : od.pre_emph.y1 = 0)
    (h3 : od.post_emph.x1 = 0) (h4 : od.post_emph.y1 = 0)
    (hx : ∀ i, i < od.blksz → x i = 0) (j : Nat) (hj : j < od.blksz) :
    filter_out od.post_emph (fun j => od.level * tick_mixed od x j) j = 0 := by
  apply filter_out_silence _ _ _ h3 h4
  intro k hk
  show od.level * tick_mixed od x k = 0
  rw [tick_mixed_silence od x h1 h2 hx k (by omega), mul_zero]

theorem overdrive_tick_silence_gen (od : overdrive α) (x : Nat → α)
    (hb : od.bypass = false)
    (h1 : od.pre_emph.x1 = 0) (h2 : od.pre_emph.y1 = 0)
    (h3 : od.post_emph.x1 = 0) (h4 : od.post_emph.y1 = 0)
    (h5 : od.tone_lp.x1 = 0) (h6 : od.tone_lp.y1 = 0)
    (h7 : od.tone_hp.x1 = 0) (h8 : od.tone_hp.y1 = 0)
    (hx : ∀ i, i < od.blksz → x i = 0) :
    (∀ i, i < od.blksz → (overdrive_tick od x).2 i = 0)
      ∧ (overdrive_tick od x).1.pre_emph = od.pre_emph
      ∧ (overdrive_tick od x).1.post_emph = od.post_emph
      ∧ (overdrive_tick od x).1.tone_lp = od.tone_lp
      ∧ (overdrive_tick od x).1.tone_hp = od.tone_hp := by
  rw [overdrive_tick_eq od x hb]
  have hp := tick_post_silence od x h1 h2 h3 h4 hx
  refine ⟨?_, ?_, ?_, ?_, ?_⟩
  · intro i hi
    simp only [if_pos hi]
    rw [filter_out_silence _ _ _ h5 h6 (fun k hk => hp k (by omega)),
      filter_out_silence _ _ _ h7 h8 (fun k hk => hp k (by omega))]
    simp
  · apply filter_run_silence _ _ _ h1 h2
    intro k hk
    show od.gain * x k = 0
    rw [hx k hk, mul_zero]
  · apply filter_run_silence _ _ _ h3 h4
    intro k hk
    show od.level * tick_mixed od x k = 0
    rw [tick_mixed_silence od x h1 h2 hx k hk, mul_zero]
  · exact filter_run_silence _ _ _ h5 h6 hp
  · exact filter_run_silence _ _ _ h7 h8 hp

/-- Members of the scenario engine. -/
theorem scenario_engine_fields (expf : α → α) (powf : α → α → α) (M_PI : α)
    (raw : overdrive α) :
    (scenario_engine expf powf M_PI raw).bypass = false
      ∧ (scenario_engine expf powf M_PI raw).blksz = 4
      ∧ (scenario_engine expf powf M_PI raw).gain = powf 10 1
      ∧ (scenario_engine expf powf M_PI raw).tone = powf 10 0
      ∧ (scenario_engine expf powf M_PI raw).level = powf 10 0
      ∧ (scenario_engine expf powf M_PI raw).pre_emph
          = compute_filter_coeffs expf M_PI zeroFilter FilterType.HPF1P 48000 720
      ∧ (scenario_engine expf powf M_PI raw).post_emph
          = compute_filter_coeffs expf M_PI zeroFilter FilterType.LPF1P 48000 800
      ∧ (scenario_engine expf powf M_PI raw).tone_lp
          = compute_filter_coeffs expf M_PI zeroFilter FilterType.LPF1P 48000 1200
      ∧ (scenario_engine expf powf M_PI raw).tone_hp
          = compute_filter_coeffs expf M_PI zeroFilter FilterType.HPF1P 48000 700 := by
  refine ⟨rfl, rfl, ?_, ?_, ?_, ?_, ?_, ?_, ?_⟩
  · simp only [scenario_engine, od_set_level, od_set_tone, od_set_drive]
    norm_num
  · simp only [scenario_engine, od_set_level, od_set_tone, od_set_drive]
    norm_num
  · simp only [scenario_engine, od_set_level, od_set_tone, od_set_drive]
    norm_num
  · simp only [scenario_engine, od_set_level, od_set_tone, od_set_drive, od_set_bypass,
      make_overdrive]
    norm_num
    exact compute_filter_coeffs_indep _ _ _ _ _ _ _
  · simp only [scenario_engine, od_set_level, od_set_tone, od_set_drive, od_set_bypass,
      make_overdrive]
    norm_num
    exact compute_filter_coeffs_indep _ _ _ _ _ _ _
  · simp only [scenario_engine, od_set_level, od_set_tone, od_set_drive, od_set_bypass,
      make_overdrive]
    norm_num
    exact compute_filter_coeffs_indep _ _ _ _ _ _ _
  · simp only [scenario_engine, od_set_level, od_set_tone, od_set_drive, od_set_bypass,
      make_overdrive]
    norm_num
    exact compute_filter_coeffs_indep _ _ _ _ _ _ _

/-- C13: on an engine that is not bypassed and whose four filters have zero
history, `overdrive_tick` maps an all-zero block to an all-zero block and
leaves the four histories at zero; in particular the scenario engine (block
size 4, oversample 1, 48000 Hz, bypass off, drive 20, tone 0, level 0) maps
`[0,0,0,0]` to `[0,0,0,0]`. -/
theorem overdrive_tick_silence (od : overdrive α) (x : Nat → α)
    (hb : od.bypass = false)
    (h1 : od.pre_emph.x1 = 0) (h2 : od.pre_emph.y1 = 0)
    (h3 : od.post_emph.x1 = 0) (h4 : od.post_emph.y1 = 0)
    (h5 : od.tone_lp.x1 = 0) (h6 : od.tone_lp.y1 = 0)
    (h7 : od.tone_hp.x1 = 0) (h8 : od.tone_hp.y1 = 0)
    (hx : ∀ i, i < od.blksz → x i = 0) :
    (∀ i, i < od.blksz → (overdrive_tick od x).2 i = 0)
      ∧ (overdrive_tick od x).1.pre_emph.x1 = 0
      ∧ (overdrive_tick od x).1.pre_emph.y1 = 0
      ∧ (overdrive_tick od x).1.post_emph.x1 = 0
      ∧ (overdrive_tick od x).1.post_emph.y1 = 0
      ∧ (overdrive_tick od x).1.tone_lp.x1 = 0
      ∧ (overdrive_tick od x).1.tone_lp.y1 = 0
      ∧ (overdrive_tick od x).1.tone_hp.x1 = 0
      ∧ (overdrive_tick od x).1.tone_hp.y1 = 0
      ∧ (∀ (expf : α → α) (powf : α → α → α) (M_PI : α) (raw : overdrive α) (i : Nat),
          i < 4 →
          (overdrive_tick (scenario_engine expf powf M_PI raw) (fun _ => 0)).2 i = 0) := by
  obtain ⟨g0, g1, g2, g3, g4⟩ :=
    overdrive_tick_silence_gen od x hb h1 h2 h3 h4 h5 h6 h7 h8 hx
  refine ⟨g0, ?_, ?_, ?_, ?_, ?_, ?_, ?_, ?_, ?_⟩
  · rw [g1]; exact h1
  · rw [g1]; exact h2
  · rw [g2]; exact h3
  · rw [g2]; exact h4
  · rw [g3]; exact h5
  · rw [g3]; exact h6
  · rw [g4]; exact h7
  · rw [g4]; exact h8
  · intro expf powf M_PI raw i hi
    obtain ⟨e1, e2, -, -, -, e6, e7, e8, e9⟩ :=
      scenario_engine_fields expf powf M_PI raw
    refine (overdrive_tick_silence_gen (scenario_engine expf powf M_PI raw)
      (fun _ => 0) e1 ?_ ?_ ?_ ?_ ?_ ?_ ?_ ?_ (fun _ _ => rfl)).1 i (by rw [e2]; exact hi)
    · rw [e6, compute_filter_coeffs_hpf]
    · rw [e6, compute_filter_coeffs_hpf]
    · rw [e7, compute_filter_coeffs_lpf]
    · rw [e7, compute_filter_coeffs_lpf]
    · rw [e8, compute_filter_coeffs_lpf]
    · rw [e8, compute_filter_coeffs_lpf]
    · rw [e9, compute_filter_coeffs_hpf]
    · rw [e9, compute_filter_coeffs_hpf]

theorem overdrive_tick_silence_witness :
    demo_engine.bypass = false
      ∧ demo_engine.pre_emph.x1 = 0 ∧ demo_engine.pre_emph.y1 = 0
      ∧ demo_engine.post_emph.x1 = 0 ∧ demo_engine.post_emph.y1 = 0
      ∧ demo_engine.tone_lp.x1 = 0 ∧ demo_engine.tone_lp.y1 = 0
      ∧ demo_engine.tone_hp.x1 = 0 ∧ demo_engine.tone_hp.y1 = 0
      ∧ (overdrive_tick demo_engine (fun _ => 0)).2 0 = 0
      ∧ (overdrive_tick demo_engine (fun _ => 0)).2 1 = 0
      ∧ (overdrive_tick demo_engine (fun _ => 0)).1.tone_hp.y1 = 0 :=
  ⟨rfl, rfl, rfl, rfl, rfl, rfl, rfl, rfl, rfl,
    (overdrive_tick_silence demo_engine (fun _ => 0) rfl rfl rfl rfl rfl rfl rfl rfl rfl
      (fun _ _ => rfl)).1 0 (by decide),
    (overdrive_tick_silence demo_engine (fun _ => 0) rfl rfl rfl rfl rfl rfl rfl rfl rfl
      (fun _ _ => rfl)).1 1 (by decide),
    (overdrive_tick_silence demo_engine (fun _ => 0) rfl rfl rfl rfl rfl rfl rfl rfl rfl
      (fun _ _ => rfl)).2.2.2.2.2.2.2.2.1⟩

/-! ## Parameter ranges -/

theorem ten_rpow_mono {a b : ℝ} (h : a ≤ b) : (10 : ℝ) ^ a ≤ (10 : ℝ) ^ b :=
  Real.rpow_le_rpow_of_exponent_le (by norm_num) h

theorem ten_rpow_zero : (10 : ℝ) ^ ((0 : ℝ) / 20) = 1 := by
  rw [zero_div, Real.rpow_zero]

theorem od_set_drive_range (od : overdrive ℝ) (d : ℝ) :
    1 ≤ (od_set_drive Real.rpow od d).gain
      ∧ (od_set_drive Real.rpow od d).gain ≤ (10 : ℝ) ^ ((45 : ℝ) / 20) := by
  unfold od_set_drive
  simp only [Real.rpow_eq_pow]
  have e10 : (10.0 : ℝ) = 10 := by norm_num
  have e20 : (20.0 : ℝ) = 20 := by norm_num
  have e0 : (0.0 : ℝ) = 0 := by norm_num
  have e45 : (45.0 : ℝ) = 45 := by norm_num
  rw [e10, e20, e0, e45]
  rw [← ten_rpow_zero]
  split_ifs with h1 h2
  · exact ⟨le_refl _, ten_rpow_mono (by norm_num)⟩
  · exact ⟨ten_rpow_mono (by norm_num), le_refl _⟩
  · exact ⟨ten_rpow_mono (by linarith), ten_rpow_mono (by linarith)⟩

theorem od_set_tone_range (od : overdrive ℝ) (d : ℝ) :
    (10 : ℝ) ^ ((-12 : ℝ) / 20) ≤ (od_set_tone Real.rpow od d).tone
      ∧ (od_set_tone Real.rpow od d).tone ≤ (10 : ℝ) ^ ((12 : ℝ) / 20) := by
  unfold od_set_tone
  simp only [Real.rpow_eq_pow]
  have e10 : (10.0 : ℝ) = 10 := by norm_num
  have e20 : (20.0 : ℝ) = 20 := by norm_num
  have e12 : (12.0 : ℝ) = 12 := by norm_num
  rw [e10, e20, e12]
  split_ifs with h1 h2
  · exact ⟨le_refl _, ten_rpow_mono (by norm_num)⟩
  · exact ⟨ten_rpow_mono (by norm_num), le_refl _⟩
  · exact ⟨ten_rpow_mono (by linarith), ten_rpow_mono (by linarith)⟩

theorem od_set_level_range (od : overdrive ℝ) (d : ℝ) :
    (10 : ℝ) ^ ((-40 : ℝ) / 20) ≤ (od_set_level Real.rpow od d).level
      ∧ (od_set_level Real.rpow od d).level ≤ 1 := by
  unfold od_set_level
  simp only [Real.rpow_eq_pow]
  have e10 : (10.0 : ℝ) = 10 := by norm_num
  have e20 : (20.0 : ℝ) = 20 := by norm_num
  have e0 : (0.0 : ℝ) = 0 := by norm_num
  have e40 : (40.0 : ℝ) = 40 := by norm_num
  rw [e10, e20, e0, e40]
  rw [← ten_rpow_zero]
  split_ifs with h1 h2 h3
  · exact ⟨ten_rpow_mono (by norm_num), le_refl _⟩
  · exfalso; linarith
  · exact ⟨ten_rpow_mono (by norm_num), le_refl _⟩
  · exact ⟨ten_rpow_mono (by linarith), ten_rpow_mono (by linarith)⟩

theorem ten_rpow_neg_half_le : (10 : ℝ) ^ ((-12 : ℝ) / 20) ≤ 0.5 := by
  have h1 : (10 : ℝ) ^ ((-12 : ℝ) / 20) ≤ (10 : ℝ) ^ (-(1 / 2) : ℝ) :=
    ten_rpow_mono (by norm_num)
  have hpos : 0 < (10 : ℝ) ^ (-(1 / 2) : ℝ) := Real.rpow_pos_of_pos (by norm_num) _
  have hsq : (10 : ℝ) ^ (-(1 / 2) : ℝ) * (10 : ℝ) ^ (-(1 / 2) : ℝ) = 10⁻¹ := by
    rw [← Real.rpow_add (by norm_num)]
    have : (-(1 / 2) + -(1 / 2) : ℝ) = -1 := by norm_num
    rw [this, Real.rpow_neg_one]
  have h2 : (10 : ℝ) ^ (-(1 / 2) : ℝ) ≤ 0.5 := by
    by_contra hc
    push_neg at hc
    have : (0.5 : ℝ) * 0.5 < (10 : ℝ) ^ (-(1 / 2) : ℝ) * (10 : ℝ) ^ (-(1 / 2) : ℝ) :=
      mul_lt_mul'' hc hc (by norm_num) (by norm_num)
    rw [hsq] at this
    norm_num at this
  exact le_trans h1 h2

theorem make_overdrive_in_range (raw : overdrive ℝ) (k bsz : Nat) (fs : ℝ) :
    params_in_range (make_overdrive Real.exp Real.pi raw k bsz fs) := by
  have hg : (make_overdrive Real.exp Real.pi raw k bsz fs).gain = 30 := by
    simp only [make_overdrive]; norm_num
  have ht : (make_overdrive Real.exp Real.pi raw k bsz fs).tone = 0.5 := by
    simp only [make_overdrive]
  have hl : (make_overdrive Real.exp Real.pi raw k bsz fs).level = 0.5 := by
    simp only [make_overdrive]
  unfold params_in_range
  rw [hg, ht, hl]
  refine ⟨by norm_num, ?_, ten_rpow_neg_half_le, ?_, ?_, by norm_num⟩
  · have h2 : (10 : ℝ) ^ ((2 : ℕ) : ℝ) ≤ (10 : ℝ) ^ ((45 : ℝ) / 20) :=
      ten_rpow_mono (by norm_num)
    rw [Real.rpow_natCast] at h2
    linarith
  · have h2 : (10 : ℝ) ^ ((0 : ℝ) / 20) ≤ (10 : ℝ) ^ ((12 : ℝ) / 20) :=
      ten_rpow_mono (by norm_num)
    rw [ten_rpow_zero] at h2
    linarith
  · have h2 : (10 : ℝ) ^ ((-40 : ℝ) / 20) ≤ (10 : ℝ) ^ ((0 : ℝ) / 20) :=
      ten_rpow_mono (by norm_num)
    rw [ten_rpow_zero] at h2
    linarith

theorem apply_op_in_range (od : overdrive ℝ) (op : Op ℝ) (h : params_in_range od) :
    params_in_range (apply_op Real.exp Real.rpow Real.pi od op) := by
  obtain ⟨g1, g2, t1, t2, l1, l2⟩ := h
  cases op with
  | set_drive d =>
    exact ⟨(od_set_drive_range od d).1, (od_set_drive_range od d).2, t1, t2, l1, l2⟩
  | set_tone d =>
    exact ⟨g1, g2, (od_set_tone_range od d).1, (od_set_tone_range od d).2, l1, l2⟩
  | set_level d =>
    exact ⟨g1, g2, t1, t2, (od_set_level_range od d).1, (od_set_level_range od d).2⟩
  | set_bypass b =>
    have e : od_set_bypass od b
        = ({ od with bypass := b || !od.bypass }, b || !od.bypass) := by
      unfold od_set_bypass
      cases b <;> cases hb : od.bypass <;> simp [hb]
    show params_in_range (od_set_bypass od b).1
    rw [e]
    exact ⟨g1, g2, t1, t2, l1, l2⟩
  | set_cut_pre_emp fc => exact ⟨g1, g2, t1, t2, l1, l2⟩
  | set_cut_post_emp fc => exact ⟨g1, g2, t1, t2, l1, l2⟩
  | set_cut_tone_lp fc => exact ⟨g1, g2, t1, t2, l1, l2⟩
  | set_cut_tone_hp fc => exact ⟨g1, g2, t1, t2, l1, l2⟩
  | tick x =>
    obtain ⟨e1, e2, e3⟩ := overdrive_tick_params od x
    show params_in_range (overdrive_tick od x).1
    unfold params_in_range
    rw [e1, e2, e3]
    exact ⟨g1, g2, t1, t2, l1, l2⟩

theorem run_ops_in_range (ops : List (Op ℝ)) (od : overdrive ℝ)
    (h : params_in_range od) :
    params_in_range (run_ops Real.exp Real.rpow Real.pi od ops) := by
  induction ops generalizing od with
  | nil => exact h
  | cons op rest ih =>
    show params_in_range (run_ops Real.exp Real.rpow Real.pi
      (apply_op Real.exp Real.rpow Real.pi od op) rest)
    exact ih _ (apply_op_in_range od op h)

/-- C17: in every engine state reached from `make_overdrive` by a finite
sequence of setter calls and `overdrive_tick` calls, `1 <= gain <= 10^(45/20)`,
`10^(-12/20) <= tone <= 10^(12/20)` and `10^(-40/20) <= level <= 1`. -/
theorem reachable_params_in_range (raw : overdrive ℝ) (oversample bsz : Nat) (fs : ℝ)
    (ops : List (Op ℝ)) :
    1 ≤ (run_ops Real.exp Real.rpow Real.pi
          (make_overdrive Real.exp Real.pi raw oversample bsz fs) ops).gain
      ∧ (run_ops Real.exp Real.rpow Real.pi
          (make_overdrive Real.exp Real.pi raw oversample bsz fs) ops).gain
          ≤ (10 : ℝ) ^ ((45 : ℝ) / 20)
      ∧ (10 : ℝ) ^ ((-12 : ℝ) / 20)
          ≤ (run_ops Real.exp Real.rpow Real.pi
              (make_overdrive Real.exp Real.pi raw oversample bsz fs) ops).tone
      ∧ (run_ops Real.exp Real.rpow Real.pi
          (make_overdrive Real.exp Real.pi raw oversample bsz fs) ops).tone
          ≤ (10 : ℝ) ^ ((12 : ℝ) / 20)
      ∧ (10 : ℝ) ^ ((-40 : ℝ) / 20)
          ≤ (run_ops Real.exp Real.rpow Real.pi
              (make_overdrive Real.exp Real.pi raw oversample bsz fs) ops).level
      ∧ (run_ops Real.exp Real.rpow Real.pi
          (make_overdrive Real.exp Real.pi raw oversample bsz fs) ops).level ≤ 1 :=
  run_ops_in_range ops _ (make_overdrive_in_range raw oversample bsz fs)

/-! ## The unit block through the scenario engine -/

/-- Ticking a filter never changes its coefficients. -/
theorem filter_run_coeffs (flt : iir_1p α) (u : Nat → α) (n : Nat) :
    (filter_run flt u n).b0 = flt.b0 ∧ (filter_run flt u n).b1 = flt.b1
      ∧ (filter_run flt u n).a1 = flt.a1 := by
  induction n with
  | zero => exact ⟨rfl, rfl, rfl⟩
  | succ k ih => exact ih

/-- First output of a filter. -/
theorem filter_out_zero (flt : iir_1p α) (u : Nat → α) :
    filter_out flt u 0 = flt.b0 * u 0 + flt.b1 * flt.x1 + flt.a1 * flt.y1 := rfl

/-- Later outputs of a filter follow the one-pole recurrence on the input
sequence. -/
theorem filter_out_succ (flt : iir_1p α) (u : Nat → α) (i : Nat) :
    filter_out flt u (i + 1)
      = flt.b0 * u (i + 1) + flt.b1 * u i + flt.a1 * filter_out flt u i := by
  obtain ⟨h0, h1, h2⟩ := filter_run_coeffs flt u i
  show (filter_run flt u i).b0 * u (i + 1) + (filter_run flt u i).b1 * u i
      + (filter_run flt u i).a1 * filter_out flt u i = _
  rw [h0, h1, h2]

/-- Output of `overdrive_tick` on the block, in terms of the signal path. -/
theorem overdrive_tick_out (od : overdrive α) (x : Nat → α) (h : od.bypass = false)
    (i : Nat) (hi : i < od.blksz) :
    (overdrive_tick od x).2 i = spec_out od x i := by
  rw [overdrive_tick_eq od x h]
  simp only [if_pos hi, spec_out]
  rw [filter_out_congr od.tone_lp _ (spec_p od x) i
      (fun j hj => tick_post_eq od x j (by omega)),
    filter_out_congr od.tone_hp _ (spec_p od x) i
      (fun j hj => tick_post_eq od x j (by omega))]

theorem exp_neg_bounds (w lo hi : ℝ) (h1 : lo ≤ w) (h2 : w ≤ hi) :
    1 - hi ≤ Real.exp (-w) ∧ Real.exp (-w) * (1 + lo) ≤ 1 := by
  have hpos : 0 < Real.exp (-w) := Real.exp_pos _
  have hlow : -w + 1 ≤ Real.exp (-w) := Real.add_one_le_exp (-w)
  have hup : w + 1 ≤ Real.exp w := Real.add_one_le_exp w
  have hprod : Real.exp (-w) * Real.exp w = 1 := by
    rw [← Real.exp_add, neg_add_cancel, Real.exp_zero]
  constructor
  · linarith
  · have hlo' : 1 + lo ≤ Real.exp w := by linarith
    calc Real.exp (-w) * (1 + lo) ≤ Real.exp (-w) * Real.exp w :=
          mul_le_mul_of_nonneg_left hlo' hpos.le
      _ = 1 := hprod

theorem scenario_exp_bounds :
    (0.9 ≤ Real.exp (-(2 * Real.pi * 720 / 48000))
        ∧ Real.exp (-(2 * Real.pi * 720 / 48000)) ≤ 1)
      ∧ (0.8950 ≤ Real.exp (-(2 * Real.pi * 800 / 48000))
        ∧ Real.exp (-(2 * Real.pi * 800 / 48000)) ≤ 0.9053)
      ∧ (0.8425 ≤ Real.exp (-(2 * Real.pi * 1200 / 48000))
        ∧ Real.exp (-(2 * Real.pi * 1200 / 48000)) ≤ 0.8644)
      ∧ (0.9081 ≤ Real.exp (-(2 * Real.pi * 700 / 48000))
        ∧ Real.exp (-(2 * Real.pi * 700 / 48000)) ≤ 0.9162) := by
  have hp1 := Real.pi_gt_d2
  have hp2 := Real.pi_lt_d2
  have b1 := exp_neg_bounds (2 * Real.pi * 720 / 48000) 0 (2 * 3.15 * 720 / 48000)
    (by positivity) (by linarith)
  have b2 := exp_neg_bounds (2 * Real.pi * 800 / 48000) (2 * 3.14 * 800 / 48000)
    (2 * 3.15 * 800 / 48000) (by linarith) (by linarith)
  have b3 := exp_neg_bounds (2 * Real.pi * 1200 / 48000) (2 * 3.14 * 1200 / 48000)
    (2 * 3.15 * 1200 / 48000) (by linarith) (by linarith)
  have b4 := exp_neg_bounds (2 * Real.pi * 700 / 48000) (2 * 3.14 * 700 / 48000)
    (2 * 3.15 * 700 / 48000) (by linarith) (by linarith)
  refine ⟨⟨?_, ?_⟩, ⟨?_, ?_⟩, ⟨?_, ?_⟩, ⟨?_, ?_⟩⟩
  · linarith only [b1.1]
  · linarith only [b1.2]
  · linarith only [b2.1]
  · linarith only [b2.2]
  · linarith only [b3.1]
  · linarith only [b3.2]
  · linarith only [b4.1]
  · linarith only [b4.2]
theorem mul_bounds {u v ul uh vl vh : ℝ} (hul : 0 ≤ ul) (hvl : 0 ≤ vl)
    (hu : ul ≤ u ∧ u ≤ uh) (hv : vl ≤ v ∧ v ≤ vh) :
    ul * vl ≤ u * v ∧ u * v ≤ uh * vh :=
  ⟨mul_le_mul hu.1 hv.1 hvl (le_trans hul hu.1),
    mul_le_mul hu.2 hv.2 (le_trans hvl hv.1) (le_trans hul (le_trans hu.1 hu.2))⟩

/-- Interval bounds along the post-emphasis and tone stages for the constant
mixed signal 1.7, from bounds on the three feedback coefficients. -/
theorem tone_chain_bound (e2 e3 e4 p0 p1 p2 p3 l0 l1 l2 l3 h0 h1 h2 h3 : ℝ)
    (E2 : 0.8950 ≤ e2 ∧ e2 ≤ 0.9053)
    (E3 : 0.8425 ≤ e3 ∧ e3 ≤ 0.8644)
    (E4 : 0.9081 ≤ e4 ∧ e4 ≤ 0.9162)
    (hp0 : p0 = (1 - e2) / 1.12 * 1.7)
    (hp1 : p1 = (1 - e2) / 1.12 * 1.7 + 0.12 * ((1 - e2) / 1.12) * 1.7 + e2 * p0)
    (hp2 : p2 = (1 - e2) / 1.12 * 1.7 + 0.12 * ((1 - e2) / 1.12) * 1.7 + e2 * p1)
    (hp3 : p3 = (1 - e2) / 1.12 * 1.7 + 0.12 * ((1 - e2) / 1.12) * 1.7 + e2 * p2)
    (hl0 : l0 = (1 - e3) / 1.12 * p0)
    (hl1 : l1 = (1 - e3) / 1.12 * p1 + 0.12 * ((1 - e3) / 1.12) * p0 + e3 * l0)
    (hl2 : l2 = (1 - e3) / 1.12 * p2 + 0.12 * ((1 - e3) / 1.12) * p1 + e3 * l1)
    (hl3 : l3 = (1 - e3) / 1.12 * p3 + 0.12 * ((1 - e3) / 1.12) * p2 + e3 * l2)
    (hh0 : h0 = (1 + e4) / 2 * p0)
    (hh1 : h1 = (1 + e4) / 2 * p1 - (1 + e4) / 2 * p0 + e4 * h0)
    (hh2 : h2 = (1 + e4) / 2 * p2 - (1 + e4) / 2 * p1 + e4 * h1)
    (hh3 : h3 = (1 + e4) / 2 * p3 - (1 + e4) / 2 * p2 + e4 * h2) :
    |l0 + h0| ≤ 0.84 ∧ |l1 + h1| ≤ 0.84 ∧ |l2 + h2| ≤ 0.84 ∧ |l3 + h3| ≤ 0.84 := by
  have c112 : (1.12 : ℝ) = 28 / 25 := by norm_num
  rw [c112] at hp0 hp1 hp2 hp3 hl0 hl1 hl2 hl3
  have I3 : 0.1356 ≤ 1 - e3 ∧ 1 - e3 ≤ 0.1575 := by
    constructor <;> linarith only [E3.1, E3.2]
  have I4 : 1.9081 ≤ 1 + e4 ∧ 1 + e4 ≤ 1.9162 := by
    constructor <;> linarith only [E4.1, E4.2]
  have P0 : 0.1437 ≤ p0 ∧ p0 ≤ 0.1594 := by
    rw [hp0]
    constructor <;> linarith only [E2.1, E2.2]
  have L0 : 0.0173 ≤ l0 ∧ l0 ≤ 0.0225 := by
    have t := mul_bounds (by norm_num) (by norm_num) I3 P0
    rw [hl0]
    constructor <;> linarith only [t.1, t.2]
  have H0 : 0.1370 ≤ h0 ∧ h0 ≤ 0.1528 := by
    have t := mul_bounds (by norm_num) (by norm_num) I4 P0
    rw [hh0]
    constructor <;> linarith only [t.1, t.2]
  have P1 : 0.2896 ≤ p1 ∧ p1 ≤ 0.3229 := by
    have t := mul_bounds (by norm_num) (by norm_num) E2 P0
    rw [hp1]
    constructor <;> linarith only [E2.1, E2.2, t.1, t.2]
  have L1 : 0.0517 ≤ l1 ∧ l1 ≤ 0.0676 := by
    have t1 := mul_bounds (by norm_num) (by norm_num) I3 P1
    have t2 := mul_bounds (by norm_num) (by norm_num) I3 P0
    have t3 := mul_bounds (by norm_num) (by norm_num) E3 L0
    rw [hl1]
    constructor <;> linarith only [t1.1, t1.2, t2.1, t2.2, t3.1, t3.2]
  have H1 : 0.2479 ≤ h1 ∧ h1 ≤ 0.3123 := by
    have t1 := mul_bounds (by norm_num) (by norm_num) I4 P1
    have t2 := mul_bounds (by norm_num) (by norm_num) I4 P0
    have t3 := mul_bounds (by norm_num) (by norm_num) E4 H0
    rw [hh1]
    constructor <;> linarith only [t1.1, t1.2, t2.1, t2.2, t3.1, t3.2]
  have P2 : 0.4201 ≤ p2 ∧ p2 ≤ 0.4709 := by
    have t := mul_bounds (by norm_num) (by norm_num) E2 P1
    rw [hp2]
    constructor <;> linarith only [E2.1, E2.2, t.1, t.2]
  have L2 : 0.0986 ≤ l2 ∧ l2 ≤ 0.1302 := by
    have t1 := mul_bounds (by norm_num) (by norm_num) I3 P2
    have t2 := mul_bounds (by norm_num) (by norm_num) I3 P1
    have t3 := mul_bounds (by norm_num) (by norm_num) E3 L1
    rw [hl2]
    constructor <;> linarith only [t1.1, t1.2, t2.1, t2.2, t3.1, t3.2]
  have H2 : 0.3165 ≤ h2 ∧ h2 ≤ 0.4611 := by
    have t1 := mul_bounds (by norm_num) (by norm_num) I4 P2
    have t2 := mul_bounds (by norm_num) (by norm_num) I4 P1
    have t3 := mul_bounds (by norm_num) (by norm_num) E4 H1
    rw [hh2]
    constructor <;> linarith only [t1.1, t1.2, t2.1, t2.2, t3.1, t3.2]
  have P3 : 0.5369 ≤ p3 ∧ p3 ≤ 0.6049 := by
    have t := mul_bounds (by norm_num) (by norm_num) E2 P2
    rw [hp3]
    constructor <;> linarith only [E2.1, E2.2, t.1, t.2]
  have L3 : 0.1541 ≤ l3 ∧ l3 ≤ 0.2056 := by
    have t1 := mul_bounds (by norm_num) (by norm_num) I3 P3
    have t2 := mul_bounds (by norm_num) (by norm_num) I3 P2
    have t3 := mul_bounds (by norm_num) (by norm_num) E3 L2
    rw [hl3]
    constructor <;> linarith only [t1.1, t1.2, t2.1, t2.2, t3.1, t3.2]
  have H3 : 0.3484 ≤ h3 ∧ h3 ≤ 0.6013 := by
    have t1 := mul_bounds (by norm_num) (by norm_num) I4 P3
    have t2 := mul_bounds (by norm_num) (by norm_num) I4 P2
    have t3 := mul_bounds (by norm_num) (by norm_num) E4 H2
    rw [hh3]
    constructor <;> linarith only [t1.1, t1.2, t2.1, t2.2, t3.1, t3.2]
  refine ⟨?_, ?_, ?_, ?_⟩ <;> rw [abs_le] <;> constructor <;>
    linarith only [L0.1, L0.2, H0.1, H0.2, L1.1, L1.2, H1.1, H1.2, L2.1, L2.2, H2.1, H2.2,
      L3.1, L3.2, H3.1, H3.2]

/-- The block `[1,1,1,1]` through an engine with the scenario parameters
(gain 10, tone 1, level 1, zero histories) whose four feedback coefficients
lie in the given intervals: every output sample is within `0.84`. -/
theorem scenario_block_bound (od : overdrive ℝ) (e1 e2 e3 e4 : ℝ)
    (hb : od.bypass = false) (hn : od.blksz = 4)
    (hg : od.gain = 10) (ht : od.tone = 1) (hl : od.level = 1)
    (hpre : od.pre_emph = ⟨(1 - -e1) * 0.5, -((1 - -e1) * 0.5), e1, 0, 0⟩)
    (hpost : od.post_emph = ⟨(1 + -e2) / 1.12, 0.12 * ((1 + -e2) / 1.12), e2, 0, 0⟩)
    (hlp : od.tone_lp = ⟨(1 + -e3) / 1.12, 0.12 * ((1 + -e3) / 1.12), e3, 0, 0⟩)
    (hhp : od.tone_hp = ⟨(1 - -e4) * 0.5, -((1 - -e4) * 0.5), e4, 0, 0⟩)
    (E1 : 0.9 ≤ e1 ∧ e1 ≤ 1)
    (E2 : 0.8950 ≤ e2 ∧ e2 ≤ 0.9053)
    (E3 : 0.8425 ≤ e3 ∧ e3 ≤ 0.8644)
    (E4 : 0.9081 ≤ e4 ∧ e4 ≤ 0.9162)
    (i : Nat) (hi : i < 4) :
    |(overdrive_tick od (fun _ => 1)).2 i| ≤ 0.84 := by
  have hS0 : spec_s od (fun _ => 1) 0 = (1 - -e1) * 0.5 * 10 := by
    unfold spec_s
    rw [filter_out_zero, hpre, hg]
    simp
  have hSs : ∀ k, spec_s od (fun _ => 1) (k + 1) = e1 * spec_s od (fun _ => 1) k := by
    intro k
    unfold spec_s
    rw [filter_out_succ, hpre, hg]
    simp only []
    ring
  have s0 : 9.5 ≤ spec_s od (fun _ => 1) 0 := by
    rw [hS0]
    linarith only [E1.1]
  have s1 : 8.5 ≤ spec_s od (fun _ => 1) 1 := by
    rw [hSs 0]
    have t := mul_le_mul E1.1 s0 (by norm_num) (by linarith only [E1.1])
    linarith only [t]
  have s2 : 7.6 ≤ spec_s od (fun _ => 1) 2 := by
    rw [hSs 1]
    have t := mul_le_mul E1.1 s1 (by norm_num) (by linarith only [E1.1])
    linarith only [t]
  have s3 : 6.8 ≤ spec_s od (fun _ => 1) 3 := by
    rw [hSs 2]
    have t := mul_le_mul E1.1 s2 (by norm_num) (by linarith only [E1.1])
    linarith only [t]
  have hS : ∀ k, k < 4 → 1.2 ≤ spec_s od (fun _ => 1) k := by
    intro k hk
    interval_cases k
    · linarith only [s0]
    · linarith only [s1]
    · linarith only [s2]
    · linarith only [s3]
  have hm : ∀ k, k < 4 → od.level * spec_m od (fun _ => 1) k = 1.7 := by
    intro k hk
    have hlt : k < ((od.blksz : Int)).toNat := by
      rw [hn]
      exact hk
    unfold spec_m spec_c clipper_tick
    rw [clipper_loop_apply, if_pos hlt, clipper_sample_high _ (hS k hk), hl]
    norm_num
  have hP : ∀ k, k < 4 →
      spec_p od (fun _ => 1) k = filter_out od.post_emph (fun _ => 1.7) k := by
    intro k hk
    unfold spec_p
    exact filter_out_congr _ _ _ _ (fun j hj => hm j (by omega))
  have hout : (overdrive_tick od (fun _ => 1)).2 i
      = filter_out od.tone_lp (filter_out od.post_emph (fun _ => 1.7)) i
        + filter_out od.tone_hp (filter_out od.post_emph (fun _ => 1.7)) i := by
    rw [overdrive_tick_out od _ hb i (by rw [hn]; exact hi)]
    unfold spec_out
    rw [ht, one_mul,
      filter_out_congr od.tone_lp _ _ i (fun j hj => hP j (by omega)),
      filter_out_congr od.tone_hp _ _ i (fun j hj => hP j (by omega))]
  have chain := tone_chain_bound e2 e3 e4
    (filter_out od.post_emph (fun _ => 1.7) 0)
    (filter_out od.post_emph (fun _ => 1.7) 1)
    (filter_out od.post_emph (fun _ => 1.7) 2)
    (filter_out od.post_emph (fun _ => 1.7) 3)
    (filter_out od.tone_lp (filter_out od.post_emph (fun _ => 1.7)) 0)
    (filter_out od.tone_lp (filter_out od.post_emph (fun _ => 1.7)) 1)
    (filter_out od.tone_lp (filter_out od.post_emph (fun _ => 1.7)) 2)
    (filter_out od.tone_lp (filter_out od.post_emph (fun _ => 1.7)) 3)
    (filter_out od.tone_hp (filter_out od.post_emph (fun _ => 1.7)) 0)
    (filter_out od.tone_hp (filter_out od.post_emph (fun _ => 1.7)) 1)
    (filter_out od.tone_hp (filter_out od.post_emph (fun _ => 1.7)) 2)
    (filter_out od.tone_hp (filter_out od.post_emph (fun _ => 1.7)) 3)
    E2 E3 E4
    (by rw [filter_out_zero, hpost]; simp only []; ring)
    (by rw [filter_out_succ, hpost]; simp only []; ring)
    (by rw [filter_out_succ, hpost]; simp only []; ring)
    (by rw [filter_out_succ, hpost]; simp only []; ring)
    (by rw [filter_out_zero, hlp]; simp only []; ring)
    (by rw [filter_out_succ, hlp]; simp only []; ring)
    (by rw [filter_out_succ, hlp]; simp only []; ring)
    (by rw [filter_out_succ, hlp]; simp only []; ring)
    (by rw [filter_out_zero, hhp]; simp only []; ring)
    (by rw [filter_out_succ, hhp]; simp only []; ring)
    (by rw [filter_out_succ, hhp]; simp only []; ring)
    (by rw [filter_out_succ, hhp]; simp only []; ring)
  rw [hout]
  interval_cases i
  · exact chain.1
  · exact chain.2.1
  · exact chain.2.2.1
  · exact chain.2.2.2

/-- C14: the scenario engine (block size 4, oversample 1, 48000 Hz, bypass
off, drive 20 dB, tone 0 dB, level 0 dB) maps the block `[1,1,1,1]` to four
samples of absolute value at most 0.84, and `overdrive_tick` gives equal
results on equal engine states and equal blocks. -/
theorem scenario_unit_block_bounded (raw : overdrive ℝ) :
    |(overdrive_tick (scenario_engine Real.exp Real.rpow Real.pi raw) (fun _ => 1)).2 0|
        ≤ 0.84
      ∧ |(overdrive_tick (scenario_engine Real.exp Real.rpow Real.pi raw) (fun _ => 1)).2 1|
        ≤ 0.84
      ∧ |(overdrive_tick (scenario_engine Real.exp Real.rpow Real.pi raw) (fun _ => 1)).2 2|
        ≤ 0.84
      ∧ |(overdrive_tick (scenario_engine Real.exp Real.rpow Real.pi raw) (fun _ => 1)).2 3|
        ≤ 0.84
      ∧ (∀ (od od2 : overdrive ℝ) (x x2 : Nat → ℝ), od = od2 → x = x2 →
          overdrive_tick od x = overdrive_tick od2 x2) := by
  obtain ⟨e1, e2, e3, e4, e5, e6, e7, e8, e9⟩ :=
    scenario_engine_fields Real.exp Real.rpow Real.pi raw
  obtain ⟨E1, E2, E3, E4⟩ := scenario_exp_bounds
  have hg : (scenario_engine Real.exp Real.rpow Real.pi raw).gain = 10 := by
    rw [e3]
    exact Real.rpow_one 10
  have ht : (scenario_engine Real.exp Real.rpow Real.pi raw).tone = 1 := by
    rw [e4]
    exact Real.rpow_zero 10
  have hl : (scenario_engine Real.exp Real.rpow Real.pi raw).level = 1 := by
    rw [e5]
    exact Real.rpow_zero 10
  rw [compute_filter_coeffs_hpf] at e6 e9
  rw [compute_filter_coeffs_lpf] at e7 e8
  have key := scenario_block_bound (scenario_engine Real.exp Real.rpow Real.pi raw)
    _ _ _ _ e1 e2 hg ht hl e6 e7 e8 e9 E1 E2 E3 E4
  refine ⟨key 0 (by norm_num), key 1 (by norm_num), key 2 (by norm_num),
    key 3 (by norm_num), ?_⟩
  intro od od2 x x2 h1 h2
  rw [h1, h2]

theorem scenario_unit_block_bounded_witness :
    |(overdrive_tick (scenario_engine Real.exp Real.rpow Real.pi zeroEngine)
          (fun _ => 1)).2 3| ≤ 0.84
      ∧ overdrive_tick (scenario_engine Real.exp Real.rpow Real.pi zeroEngine) (fun _ => 1)
        = overdrive_tick (scenario_engine Real.exp Real.rpow Real.pi zeroEngine)
            (fun _ => 1) :=
  ⟨(scenario_unit_block_bounded zeroEngine).2.2.2.1,
    (scenario_unit_block_bounded zeroEngine).2.2.2.2 _ _ _ _ rfl rfl⟩

end Overdrive
